import Mathlib

/-!
ISAKMP payload construction and response decoding (isakmp.c)

A shallow embedding of the functions of `isakmp.c`.

* Bytes are natural numbers below 256; a buffer returned by a builder is a
  `List Nat`.
* The decoders read packet memory through a byte-addressed memory
  `mem : Nat → Nat` and a cursor address `cp`; every read is logged, so that
  the addresses a function touches can be compared with the remaining length
  it was given.
* The static variables of `add_trans` are an explicit state record.
* C strings are `String`s.
-/

namespace Isakmp

/-! ## Constants of ike-scan.h -/

/-- Modelled from the spec: ISAKMP_NEXT_NONE, the next-payload value NONE (0),
declared in ike-scan.h. -/
def ISAKMP_NEXT_NONE : Nat := 0

/-- Modelled from the spec: KEY_IKE, the transform-id 1, declared in ike-scan.h. -/
def KEY_IKE : Nat := 1

/-- Modelled from the spec: ISAKMP_XCHG_NONE (0), declared in ike-scan.h. -/
def ISAKMP_XCHG_NONE : Int := 0

/-- Modelled from the spec: ISAKMP_XCHG_IDPROT, Main Mode (2), declared in
ike-scan.h. -/
def ISAKMP_XCHG_IDPROT : Int := 2

/-- Modelled from the spec: ISAKMP_XCHG_AGGR, Aggressive Mode (4), declared in
ike-scan.h. -/
def ISAKMP_XCHG_AGGR : Int := 4

/-- Modelled from the spec: sizeof(struct isakmp_generic), the 4-byte generic
payload header (next, reserved, 2-byte length) of ike-scan.h. -/
def sizeof_isakmp_generic : Nat := 4

/-- Modelled from the spec: sizeof(struct isakmp_hdr), the 28-byte ISAKMP header
of ike-scan.h. -/
def sizeof_isakmp_hdr : Nat := 28

/-- Modelled from the spec: sizeof(struct isakmp_sa): generic header, DOI (4),
situation (4). -/
def sizeof_isakmp_sa : Nat := 12

/-- Modelled from the spec: sizeof(struct isakmp_proposal): generic header,
proposal number, protocol-id, SPI size, number of transforms. -/
def sizeof_isakmp_proposal : Nat := 8

/-- Modelled from the spec: sizeof(struct isakmp_transform): generic header,
transform number, transform-id, 2 reserved bytes. -/
def sizeof_isakmp_transform : Nat := 8

/-- Modelled from the spec: sizeof(struct isakmp_attribute): 2-byte type and
2-byte length-or-value. -/
def sizeof_isakmp_attribute : Nat := 4

/-- Modelled from the spec: sizeof(struct isakmp_attribute_l32): 2-byte type,
2-byte length, 4-byte value. -/
def sizeof_isakmp_attribute_l32 : Nat := 8

/-- Modelled from the spec: sizeof(struct isakmp_vid), a bare generic header. -/
def sizeof_isakmp_vid : Nat := 4

/-- Modelled from the spec: sizeof(struct isakmp_notification): generic header,
DOI (4), protocol-id, SPI size, notify type (2). -/
def sizeof_isakmp_notification : Nat := 12

/-! ## Wire primitives -/

/-- The two bytes, in memory order, of a 16-bit field that holds `htons v`;
`v` is converted to `uint16_t` first, so only its low 16 bits are stored. -/
def htons (v : Nat) : List Nat := [v / 256 % 256, v % 256]

/-- The four bytes, in memory order, of a 32-bit field that holds `htonl v`. -/
def htonl (v : Nat) : List Nat :=
  [v / 16777216 % 256, v / 65536 % 256, v / 256 % 256, v % 256]

/-- Memory image of a `struct isakmp_transform` after `memset` to zero and the
assignments to `isat_np`, `isat_length`, `isat_transnum` and `isat_transid`.
Modelled from the spec: the field layout of the struct, declared in ike-scan.h. -/
def isakmp_transform_image (np length transnum transid : Nat) : List Nat :=
  [np % 256, 0] ++ htons length ++ [transnum % 256, transid % 256, 0, 0]

/-- Memory image of a `struct isakmp_attribute` holding `htons af_type` and
`htons lv`. Modelled from the spec: the field layout of the struct, declared in
ike-scan.h. -/
def isakmp_attribute_image (af_type lv : Nat) : List Nat :=
  htons af_type ++ htons lv

/-- Memory image of a `struct isakmp_attribute_l32` holding `htons af_type`,
`htons l` and `htonl v`. Modelled from the spec: the field layout of the struct,
declared in ike-scan.h. -/
def isakmp_attribute_l32_image (af_type l v : Nat) : List Nat :=
  htons af_type ++ htons l ++ htonl v

/-! ## make_trans -/

/-- The function `make_trans`: the payload and the value stored through `length`.
The integer parameters are converted to their C types on entry (`uint8_t`,
`uint16_t`, `uint32_t`); `gss_data` is the `gss_data_len` bytes behind the
pointer of that name. -/
def make_trans (next number cipher keylen hash auth group lifetime lifesize : Nat)
    (gss_id_flag : Int) (gss_data : List Nat) : List Nat × Nat :=
  let keylen := keylen % 65536
  let lifetime := lifetime % 4294967296
  let lifesize := lifesize % 4294967296
  let gss_data_len := gss_data.length
  -- mandatory attributes
  let attr1 := isakmp_attribute_image 0x8001 cipher ++ isakmp_attribute_image 0x8002 hash
      ++ isakmp_attribute_image 0x8003 auth ++ isakmp_attribute_image 0x8004 group
  let len := sizeof_isakmp_transform + 4 * sizeof_isakmp_attribute
  -- optional attributes
  let attr2 := isakmp_attribute_image 0x800e keylen
  let len := if keylen ≠ 0 then len + sizeof_isakmp_attribute else len
  let attr3 := isakmp_attribute_image 0x800b 1
  let attr4 := isakmp_attribute_l32_image 0x000c 4 lifetime
  let len := if lifetime ≠ 0 then len + (sizeof_isakmp_attribute + sizeof_isakmp_attribute_l32)
    else len
  let attr5 := isakmp_attribute_image 0x800b 2
  let attr6 := isakmp_attribute_l32_image 0x000c 4 lifesize
  let len := if lifesize ≠ 0 then len + (sizeof_isakmp_attribute + sizeof_isakmp_attribute_l32)
    else len
  let gssid := isakmp_attribute_image 16384 gss_data_len ++ gss_data
  let len := if gss_id_flag ≠ 0 then len + (gss_data_len + sizeof_isakmp_attribute) else len
  -- fill in the length now it is known
  let hdr := isakmp_transform_image next len number KEY_IKE
  -- copy the structures to the payload
  let payload := hdr ++ attr1
  let payload := if keylen ≠ 0 then payload ++ attr2 else payload
  let payload := if lifetime ≠ 0 then payload ++ attr3 ++ attr4 else payload
  let payload := if lifesize ≠ 0 then payload ++ attr5 ++ attr6 else payload
  let payload := if gss_id_flag ≠ 0 then payload ++ gssid else payload
  (payload, len)

/-- The length the transform has according to the specification: the 8-byte
header, four TV attributes, and the enabled optional attributes. -/
def trans_total (keylen lifetime lifesize : Nat) (gss_id_flag : Int) (gss_data : List Nat) :
    Nat :=
  24 + (if keylen ≠ 0 then 4 else 0) + (if lifetime ≠ 0 then 12 else 0)
    + (if lifesize ≠ 0 then 12 else 0) + (if gss_id_flag ≠ 0 then 4 + gss_data.length else 0)

/-- The bytes the specification lists for a transform, written out one by one. -/
def trans_wire (next number cipher keylen hash auth group lifetime lifesize : Nat)
    (gss_id_flag : Int) (gss_data : List Nat) : List Nat :=
  let total := trans_total keylen lifetime lifesize gss_id_flag gss_data
  [next, 0, total / 256, total % 256, number, 1, 0, 0]
  ++ [0x80, 0x01, cipher / 256, cipher % 256]
  ++ [0x80, 0x02, hash / 256, hash % 256]
  ++ [0x80, 0x03, auth / 256, auth % 256]
  ++ [0x80, 0x04, group / 256, group % 256]
  ++ (if keylen ≠ 0 then [0x80, 0x0e, keylen / 256, keylen % 256] else [])
  ++ (if lifetime ≠ 0 then
        [0x80, 0x0b, 0, 1, 0x00, 0x0c, 0, 4,
         lifetime / 16777216, lifetime / 65536 % 256, lifetime / 256 % 256, lifetime % 256]
      else [])
  ++ (if lifesize ≠ 0 then
        [0x80, 0x0b, 0, 2, 0x00, 0x0c, 0, 4,
         lifesize / 16777216, lifesize / 65536 % 256, lifesize / 256 % 256, lifesize % 256]
      else [])
  ++ (if gss_id_flag ≠ 0 then
        [0x40, 0x00, gss_data.length / 256, gss_data.length % 256] ++ gss_data
      else [])

/-! ## add_trans -/

/-- The transform arguments of one call `add_trans(0, &length, cipher, ...)`;
`gss_data` is the `gss_data_len` bytes behind the pointer of that name. -/
structure trans_params where
  cipher : Nat
  keylen : Nat
  hash : Nat
  auth : Nat
  group : Nat
  lifetime : Nat
  lifesize : Nat
  gss_id_flag : Int
  gss_data : List Nat

/-- The static variables of `add_trans`. The buffer behind `trans_start` is a byte
list (empty while the pointer is NULL); `trans_no` is a C `int` that is only ever
incremented, kept here as a natural number. -/
structure trans_state where
  first_transform : Int
  trans_start : List Nat
  cur_offset : Nat
  end_offset : Nat
  trans_no : Nat

/-- The static variables as the program starts: `first_transform = 1`,
`trans_start = NULL`, `trans_no = 1`, the two offsets zero-initialised. -/
def trans_state_init : trans_state :=
  { first_transform := 1, trans_start := [], cur_offset := 0, end_offset := 0, trans_no := 1 }

/-- The buffer after `Malloc(n)` (from an empty `buf`) or `Realloc(buf, n)`: `n`
bytes, the old contents kept; bytes C leaves unspecified are 0 here. -/
def Realloc (buf : List Nat) (n : Nat) : List Nat :=
  buf.take n ++ List.replicate (n - buf.length) 0

/-- The buffer after `memcpy(buf + off, src, len)` with `len` the size of `src`. -/
def memcpy_at (buf : List Nat) (off : Nat) (src : List Nat) : List Nat :=
  buf.take off ++ src ++ buf.drop (off + src.length)

/-- The function `add_trans`: the new static state, and the returned pointer with
the value stored through `length` (`none` for the NULL returned while appending).
Finalising with a NULL `trans_start` is a write through a null pointer in C; here
it leaves the empty buffer as it is. -/
def add_trans (finished : Int) (p : trans_params) (s : trans_state) :
    trans_state × Option (List Nat × Nat) :=
  if finished = 0 then
    let made := make_trans 3 s.trans_no p.cipher p.keylen p.hash p.auth p.group p.lifetime
      p.lifesize p.gss_id_flag p.gss_data
    let trans := made.1
    let len := made.2
    let trans_no := s.trans_no + 1
    if s.first_transform ≠ 0 then
      let cur_offset := 0
      let end_offset := len
      let trans_start := Realloc [] end_offset
      let trans_start := memcpy_at trans_start 0 trans
      ({ first_transform := 0, trans_start := trans_start, cur_offset := cur_offset,
         end_offset := end_offset, trans_no := trans_no }, none)
    else
      let cur_offset := s.end_offset
      let end_offset := s.end_offset + len
      let trans_start := Realloc s.trans_start end_offset
      let trans_start := memcpy_at trans_start cur_offset trans
      ({ first_transform := s.first_transform, trans_start := trans_start,
         cur_offset := cur_offset, end_offset := end_offset, trans_no := trans_no }, none)
  else
    -- hdr->isat_np = 0 through the overlay at trans_start + cur_offset
    let trans_start := s.trans_start.set s.cur_offset 0
    ({ s with trans_start := trans_start }, some (trans_start, s.end_offset))

/-- Arguments for a finalising call, which ignores them. -/
def trans_params_unused : trans_params :=
  { cipher := 0, keylen := 0, hash := 0, auth := 0, group := 0, lifetime := 0, lifesize := 0,
    gss_id_flag := 0, gss_data := [] }

/-- The static state after one `add_trans(0, ...)` call per element of `ps`, in
order. -/
def add_trans_appends (ps : List trans_params) (s : trans_state) : trans_state :=
  ps.foldl (fun st p => (add_trans 0 p st).1) s

/-- From a fresh accumulator: one `add_trans(0, ...)` per element of `ps`, then
`add_trans(1, ...)`; the returned buffer and length. -/
def add_trans_build (ps : List trans_params) : Option (List Nat × Nat) :=
  (add_trans 1 trans_params_unused (add_trans_appends ps trans_state_init)).2

/-- The chain the specification describes for the parameter sets `ps`, numbering
from `k`: each transform built by `make_trans` with its position as transform
number, next-payload 3 on all but the last and 0 on the last. -/
def expected_transforms : Nat → List trans_params → List (List Nat)
  | _, [] => []
  | k, [p] => [(make_trans 0 k p.cipher p.keylen p.hash p.auth p.group p.lifetime
      p.lifesize p.gss_id_flag p.gss_data).1]
  | k, p :: q :: ps => (make_trans 3 k p.cipher p.keylen p.hash p.auth p.group p.lifetime
      p.lifesize p.gss_id_flag p.gss_data).1 :: expected_transforms (k + 1) (q :: ps)

/-- The transforms as `add_trans(0, ...)` appends them for the parameter sets
`ps`, numbering from `k`: every one with next-payload 3. -/
def appended_transforms : Nat → List trans_params → List (List Nat)
  | _, [] => []
  | k, p :: ps => (make_trans 3 k p.cipher p.keylen p.hash p.auth p.group p.lifetime
      p.lifesize p.gss_id_flag p.gss_data).1 :: appended_transforms (k + 1) ps

/-- The statement of the transform-set property for the parameter sets `ps`: the
finalised buffer is the concatenation of the expected transforms, the length is
the sum of their lengths, the i-th transform carries the number i in its
transform-number byte (offset 4) and next-payload 3, or 0 for the last one, in its
first byte. -/
def add_trans_chain (ps : List trans_params) : Prop :=
  add_trans_build ps
      = some ((expected_transforms 1 ps).flatten, ((expected_transforms 1 ps).map List.length).sum)
  ∧ ∀ i, i < ps.length →
      ((expected_transforms 1 ps).getD i []).getD 4 0 = i + 1
      ∧ ((expected_transforms 1 ps).getD i []).getD 0 0 = (if i + 1 = ps.length then 0 else 3)

/-- A transform with the four mandatory attributes only (3DES, SHA1, PSK, group 2). -/
def trans_params_basic : trans_params :=
  { cipher := 5, keylen := 0, hash := 2, auth := 1, group := 2, lifetime := 0, lifesize := 0,
    gss_id_flag := 0, gss_data := [] }

/-! ## Reading packet memory -/

/-- A value computed from packet memory together with the addresses that were
read to compute it, in the order of the reads. -/
structure Traced (α : Type) where
  val : α
  reads : List Nat

/-- A value that needs no read. -/
def Traced.ret {α : Type} (a : α) : Traced α := { val := a, reads := [] }

/-- Sequencing: the reads of the first computation, then those of the second. -/
def Traced.andThen {α β : Type} (x : Traced α) (f : α → Traced β) : Traced β :=
  { val := (f x.val).val, reads := x.reads ++ (f x.val).reads }

instance : Monad Traced where
  pure := Traced.ret
  bind := Traced.andThen

/-- Read of one `unsigned char` at address `a`. -/
def rd8 (mem : Nat → Nat) (a : Nat) : Traced Nat := { val := mem a % 256, reads := [a] }

/-- The value `ntohs(f)` of a 16-bit field `f` stored at address `a`. -/
def rd16 (mem : Nat → Nat) (a : Nat) : Traced Nat := do
  let hi ← rd8 mem a
  let lo ← rd8 mem (a + 1)
  pure (hi * 256 + lo)

/-- The value `ntohl(f)` of a 32-bit field `f` stored at address `a`. -/
def rd32 (mem : Nat → Nat) (a : Nat) : Traced Nat := do
  let b0 ← rd8 mem a
  let b1 ← rd8 mem (a + 1)
  let b2 ← rd8 mem (a + 2)
  let b3 ← rd8 mem (a + 3)
  pure (b0 * 16777216 + b1 * 65536 + b2 * 256 + b3)

/-- The memory that holds the bytes `buf` from address 0 on and zero elsewhere. -/
def mem_of (buf : List Nat) : Nat → Nat := fun a => buf.getD a 0

/-! ## skip_payload, process_isakmp_hdr, process_sa -/

/-- What `skip_payload` returns and stores: the returned pointer (`none` is NULL),
`*len` and `*next`. -/
structure skip_result where
  ret : Option Nat
  len : Nat
  next : Int
deriving DecidableEq

/-- The function `skip_payload` on the payload at address `cp` with `len` bytes
remaining. Modelled from the spec: the offsets of `isag_np` (0) and `isag_length`
(2) in struct isakmp_generic, declared in ike-scan.h. -/
def skip_payload (mem : Nat → Nat) (cp len : Nat) : Traced skip_result :=
  if len < sizeof_isakmp_generic then
    pure { ret := none, len := 0, next := ISAKMP_NEXT_NONE }
  else do
    let l1 ← rd16 mem (cp + 2)
    if l1 ≥ len then pure { ret := none, len := 0, next := ISAKMP_NEXT_NONE }
    else do
      let l2 ← rd16 mem (cp + 2)
      if l2 < sizeof_isakmp_generic then
        pure { ret := none, len := 0, next := ISAKMP_NEXT_NONE }
      else do
        let np ← rd8 mem cp
        if np = ISAKMP_NEXT_NONE then
          pure { ret := none, len := 0, next := ISAKMP_NEXT_NONE }
        else do
          let l3 ← rd16 mem (cp + 2)
          let np2 ← rd8 mem cp
          let l4 ← rd16 mem (cp + 2)
          pure { ret := some (cp + l4), len := len - l3, next := np2 }

/-- What `process_isakmp_hdr` returns and stores: the returned pointer, `*len`,
`*next` and `*type`. -/
structure hdr_result where
  ret : Option Nat
  len : Nat
  next : Int
  type : Int
deriving DecidableEq

/-- The function `process_isakmp_hdr` on the header at address `cp` with `len`
bytes remaining. Modelled from the spec: the offsets of `isa_np` (16), `isa_xchg`
(18) and `isa_length` (24) in struct isakmp_hdr, declared in ike-scan.h. -/
def process_isakmp_hdr (mem : Nat → Nat) (cp len : Nat) : Traced hdr_result :=
  if len < sizeof_isakmp_hdr then
    pure { ret := none, len := 0, next := ISAKMP_NEXT_NONE, type := ISAKMP_XCHG_NONE }
  else do
    let isa_length ← rd32 mem (cp + 24)
    if isa_length < sizeof_isakmp_hdr then
      pure { ret := none, len := 0, next := ISAKMP_NEXT_NONE, type := ISAKMP_XCHG_NONE }
    else do
      let np ← rd8 mem (cp + 16)
      if np = ISAKMP_NEXT_NONE then
        pure { ret := none, len := 0, next := ISAKMP_NEXT_NONE, type := ISAKMP_XCHG_NONE }
      else do
        let np2 ← rd8 mem (cp + 16)
        let xchg ← rd8 mem (cp + 18)
        pure { ret := some (cp + sizeof_isakmp_hdr), len := len - sizeof_isakmp_hdr,
               next := np2, type := xchg }

/-- Modelled from the spec: the conversion `%u` of `make_message` (a printf-style
formatter defined outside isakmp.c) applied to an `int`: the decimal digits of the
value read as a 32-bit unsigned number. -/
def fmt_u (v : Int) : String := toString (v % 4294967296).toNat

/-- Modelled from the spec: the conversion `%d` of `make_message` applied to a
non-negative value: its decimal digits. -/
def fmt_d (v : Nat) : String := toString v

/-- The function `process_sa` on the SA payload at address `cp` with `len` bytes
remaining and exchange type `type`. Modelled from the spec: the offsets of
`isasa_length` (2) in struct isakmp_sa and of `isap_notrans` (7) in struct
isakmp_proposal, declared in ike-scan.h. -/
def process_sa (mem : Nat → Nat) (cp len : Nat) (type : Int) : Traced String :=
  if len < sizeof_isakmp_sa + sizeof_isakmp_proposal then
    pure "IKE Handshake returned (packet too short to decode)"
  else do
    let isasa_length ← rd16 mem (cp + 2)
    if isasa_length < sizeof_isakmp_sa + sizeof_isakmp_proposal then
      pure "IKE Handshake returned (packet too short to decode)"
    else
      let msg :=
        if type = ISAKMP_XCHG_IDPROT then "Main Mode Handshake returned"
        else if type = ISAKMP_XCHG_AGGR then "Aggressive Mode Handshake returned"
        else "UNKNOWN Mode Handshake returned (" ++ fmt_u type ++ ")"
      do
        let notrans ← rd8 mem (cp + sizeof_isakmp_sa + 7)
        if notrans ≠ 1 then do
          let notrans2 ← rd8 mem (cp + sizeof_isakmp_sa + 7)
          pure (msg ++ " (" ++ fmt_d notrans2 ++ " transforms)")
        else pure msg

/-- The mode string of the specification for exchange type `t`. -/
def sa_base (t : Int) : String :=
  if t = 2 then "Main Mode Handshake returned"
  else if t = 4 then "Aggressive Mode Handshake returned"
  else "UNKNOWN Mode Handshake returned (" ++ toString t ++ ")"

/-! ## process_vid -/

/-- Modelled from the spec: one entry of struct vid_pattern_list (declared in
ike-scan.h): the pattern name, and the `len` pattern bytes behind `data`; the
linked list is a `List` of entries. -/
structure vid_pattern where
  name : String
  data : List Nat

/-- One lowercase hexadecimal digit. -/
def hex_digit (n : Nat) : Char :=
  if n < 10 then Char.ofNat (48 + n) else Char.ofNat (87 + n)

/-- The two characters `sprintf(p, "%.2x", b)` writes for an `unsigned char`. -/
def sprintf_02x (b : Nat) : String := String.mk [hex_digit (b / 16), hex_digit (b % 16)]

/-- The loop `for (i=0; i<data_len; i++) sprintf(p, "%.2x", *ucp++)` starting with
`ucp = a`: the hex string written. -/
def hex_loop (mem : Nat → Nat) : Nat → Nat → Traced String
  | _, 0 => pure ""
  | a, n + 1 => do
    let b ← rd8 mem a
    let rest ← hex_loop mem (a + 1) n
    pure (sprintf_02x b ++ rest)

/-- The test `memcmp(a, data, n) == 0` for the `n` pattern bytes `data`: bytes are
compared in order up to the first difference. -/
def memcmp_eq (mem : Nat → Nat) : Nat → List Nat → Traced Bool
  | _, [] => pure true
  | a, d :: ds => do
    let b ← rd8 mem a
    if b = d then memcmp_eq mem (a + 1) ds else pure false

/-- The test `process_vid` applies to the entry `ve`: `checklen` is the smaller of
`data_len` and the pattern length, and `memcmp` over `checklen` bytes returns 0. -/
def vid_check (mem : Nat → Nat) (vid_data data_len : Nat) (ve : vid_pattern) : Traced Bool :=
  let checklen := if data_len < ve.data.length then data_len else ve.data.length
  memcmp_eq mem vid_data (ve.data.take checklen)

/-- The `while (ve != NULL)` loop of `process_vid` over the pattern list. -/
def vid_scan (mem : Nat → Nat) (vid_data data_len : Nat) (msg : String) :
    List vid_pattern → Traced String
  | [] => pure msg
  | ve :: rest => do
    let same ← vid_check mem vid_data data_len ve
    if same then pure (msg ++ " (" ++ ve.name ++ ")")
    else vid_scan mem vid_data data_len msg rest

/-- The first half of `process_vid` past the length checks: `data_len` and the
message `VID=` followed by the hex string. -/
def vid_render (mem : Nat → Nat) (cp len : Nat) : Traced (Nat × String) := do
  let vid_data := cp + sizeof_isakmp_vid
  let l1 ← rd16 mem (cp + 2)
  let data_len ← (if l1 < len then rd16 mem (cp + 2) else pure len)
  let hex ← hex_loop mem vid_data data_len
  pure (data_len, "VID=" ++ hex)

/-- The function `process_vid` on the Vendor ID payload at address `cp` with `len`
bytes remaining. Modelled from the spec: the offset of `isavid_length` (2) in
struct isakmp_vid, declared in ike-scan.h. -/
def process_vid (mem : Nat → Nat) (cp len : Nat) (vidlist : List vid_pattern) :
    Traced String :=
  if len < sizeof_isakmp_vid then pure "VID (packet too short to decode)"
  else do
    let isavid_length ← rd16 mem (cp + 2)
    if isavid_length < sizeof_isakmp_vid then pure "VID (packet too short to decode)"
    else do
      let r ← vid_render mem cp len
      vid_scan mem (cp + sizeof_isakmp_vid) r.1 r.2 vidlist

/-- The `n` bytes stored in memory from address `a` on. -/
def mem_bytes (mem : Nat → Nat) : Nat → Nat → List Nat
  | _, 0 => []
  | a, n + 1 => mem a % 256 :: mem_bytes mem (a + 1) n

/-- The bytes of the VID body of a payload with declared length `L` at `cp`: the
`L - 4` bytes after the generic header. -/
def vid_body (mem : Nat → Nat) (cp L : Nat) : List Nat :=
  mem_bytes mem (cp + 4) (L - 4)

/-- The hexadecimal rendering of a byte list, two lowercase digits per byte. -/
def hex_of (bs : List Nat) : String :=
  String.join (bs.map sprintf_02x)

/-- The matching rule of the specification: pattern and VID body agree on their
first min(pattern length, body length) bytes. -/
def spec_match (p : vid_pattern) (v : List Nat) : Prop :=
  p.data.take (min p.data.length v.length) = v.take (min p.data.length v.length)

instance (p : vid_pattern) (v : List Nat) : Decidable (spec_match p v) := by
  unfold spec_match
  infer_instance

/-- A packet tail used in the examples: a Vendor ID payload with declared length 6
and body 01 02, followed by a payload with an empty body. -/
def vid_example_mem : Nat → Nat := mem_of [13, 0, 0, 6, 1, 2, 0, 0, 0, 4]

/-! ## process_notify -/

/-- The table `notification_msg`. -/
def notification_msg : List String :=
  ["UNSPECIFIED", "INVALID-PAYLOAD-TYPE", "DOI-NOT-SUPPORTED", "SITUATION-NOT-SUPPORTED",
   "INVALID-COOKIE", "INVALID-MAJOR-VERSION", "INVALID-MINOR-VERSION",
   "INVALID-EXCHANGE-TYPE", "INVALID-FLAGS", "INVALID-MESSAGE-ID", "INVALID-PROTOCOL-ID",
   "INVALID-SPI", "INVALID-TRANSFORM-ID", "ATTRIBUTES-NOT-SUPPORTED", "NO-PROPOSAL-CHOSEN",
   "BAD-PROPOSAL-SYNTAX", "PAYLOAD-MALFORMED", "INVALID-KEY-INFORMATION",
   "INVALID-ID-INFORMATION", "INVALID-CERT-ENCODING", "INVALID-CERTIFICATE",
   "CERT-TYPE-UNSUPPORTED", "INVALID-CERT-AUTHORITY", "INVALID-HASH-INFORMATION",
   "AUTHENTICATION-FAILED", "INVALID-SIGNATURE", "ADDRESS-NOTIFICATION",
   "NOTIFY-SA-LIFETIME", "CERTIFICATE-UNAVAILABLE", "UNSUPPORTED-EXCHANGE-TYPE",
   "UNEQUAL-PAYLOAD-LENGTHS"]

/-- The test `isprint(c)` of the C locale on an `unsigned char`. -/
def isprint (c : Nat) : Bool := decide (32 ≤ c ∧ c ≤ 126)

/-- The reads of `memcpy(dst, a, n)`: the `n` bytes copied, in order. -/
def memcpy_read (mem : Nat → Nat) : Nat → Nat → Traced (List Nat)
  | _, 0 => pure []
  | a, n + 1 => do
    let b ← rd8 mem a
    let rest ← memcpy_read mem (a + 1) n
    pure (b :: rest)

/-- The C string a NUL-terminated copy of `bytes` holds after the loop that
replaces every non-printable character by a dot: it ends before the first zero
byte. -/
def printable_string (bytes : List Nat) : String :=
  String.mk ((bytes.takeWhile (fun b => b ≠ 0)).map
    (fun b => if isprint b then Char.ofNat b else '.'))

/-- The function `process_notify` on the Notification payload at address `cp` with
`len` bytes remaining. Modelled from the spec: the offsets of `isan_length` (2)
and `isan_type` (10) in struct isakmp_notification, declared in ike-scan.h. -/
def process_notify (mem : Nat → Nat) (cp len : Nat) : Traced String :=
  if len < sizeof_isakmp_notification then
    pure "Notify message (packet too short to decode)"
  else do
    let l1 ← rd16 mem (cp + 2)
    if l1 < sizeof_isakmp_notification then
      pure "Notify message (packet too short to decode)"
    else do
      let msg_type ← rd16 mem (cp + 10)
      let l2 ← rd16 mem (cp + 2)
      let msg_len := l2 - sizeof_isakmp_notification
      let msg_data := cp + sizeof_isakmp_notification
      if msg_type < 31 then
        pure ("Notify message " ++ fmt_d msg_type ++ " ("
          ++ notification_msg.getD msg_type "" ++ ")")
      else if msg_type = 9101 then do
        let notify_msg ← memcpy_read mem msg_data msg_len
        pure ("Notify message " ++ fmt_d msg_type
          ++ " [Checkpoint Firewall-1 4.x or NG Base] (" ++ printable_string notify_msg ++ ")")
      else
        pure ("Notify message " ++ fmt_d msg_type ++ " (UNKNOWN MESSAGE TYPE)")

/-! ## make_isakmp_hdr, make_sa_hdr, make_prop -/

/-- Modelled from the spec: ISAKMP_NEXT_SA, the payload kind SA (1), declared in
ike-scan.h. -/
def ISAKMP_NEXT_SA : Nat := 1

/-- Modelled from the spec: ISAKMP_NEXT_VID, the payload kind Vendor ID (13),
declared in ike-scan.h. -/
def ISAKMP_NEXT_VID : Nat := 13

/-- Modelled from the spec: ISAKMP_DOI_IPSEC, the IPsec DOI (1), declared in
ike-scan.h. -/
def ISAKMP_DOI_IPSEC : Nat := 1

/-- Modelled from the spec: SIT_IDENTITY_ONLY, the situation value 1, declared in
ike-scan.h. -/
def SIT_IDENTITY_ONLY : Nat := 1

/-- Modelled from the spec: PROTO_ISAKMP, the protocol-id 1, declared in
ike-scan.h. -/
def PROTO_ISAKMP : Nat := 1

/-- Modelled from the spec: sizeof(struct isakmp_kx), a bare generic header. -/
def sizeof_isakmp_kx : Nat := 4

/-- Modelled from the spec: sizeof(struct isakmp_nonce), a bare generic header. -/
def sizeof_isakmp_nonce : Nat := 4

/-- Modelled from the spec: sizeof(struct isakmp_id): generic header, id-type,
DOI-specific A (1 byte), DOI-specific B (2 bytes). -/
def sizeof_isakmp_id : Nat := 8

/-- The four bytes, in memory order, of a `uint32_t` stored without conversion; the
order is that of the host, big-endian when `host_be` is true. -/
def host_u32 (host_be : Bool) (v : Nat) : List Nat :=
  if host_be then htonl v else (htonl v).reverse

/-- The function `make_isakmp_hdr`: the 28 bytes of the header. `host_be` is the
byte order of the host, which decides how the initiator cookie words are stored.
Modelled from the spec: the field layout of struct isakmp_hdr, declared in
ike-scan.h. -/
def make_isakmp_hdr (host_be : Bool) (xchg next length : Nat) : List Nat :=
  host_u32 host_be 0xdeadbeef ++ host_u32 host_be 0xdeadbeef   -- isa_icookie
  ++ host_u32 host_be 0 ++ host_u32 host_be 0                  -- isa_rcookie
  ++ [next % 256, 0x10, xchg % 256, 0]            -- isa_np, isa_version, isa_xchg, isa_flags
  ++ host_u32 host_be 0                                        -- isa_msgid
  ++ htonl length                                              -- isa_length

/-- The function `make_sa_hdr`: the 12 bytes of the SA header. Modelled from the
spec: the field layout of struct isakmp_sa, declared in ike-scan.h. -/
def make_sa_hdr (next length : Nat) : List Nat :=
  [next % 256, 0] ++ htons length ++ htonl ISAKMP_DOI_IPSEC ++ htonl SIT_IDENTITY_ONLY

/-- The function `make_prop`: the 8 bytes of the proposal header. Modelled from the
spec: the field layout of struct isakmp_proposal, declared in ike-scan.h. -/
def make_prop (length notrans : Nat) : List Nat :=
  [0, 0] ++ htons length ++ [1, PROTO_ISAKMP % 256, 0, notrans % 256]

/-! ## make_vid, add_vid -/

/-- Memory image of a generic payload header (`struct isakmp_vid`, `isakmp_kx`,
`isakmp_nonce`) after `memset` to zero and the assignments to the next-payload and
length fields. Modelled from the spec: the field layout, declared in ike-scan.h. -/
def isakmp_generic_image (np length : Nat) : List Nat :=
  [np % 256, 0] ++ htons length

/-- The function `make_vid`: the payload and the value stored through `length`;
`vid_data` is the `vid_data_len` bytes behind the pointer of that name. -/
def make_vid (next : Nat) (vid_data : List Nat) : List Nat × Nat :=
  let vid_data_len := vid_data.length
  let payload := Realloc [] (sizeof_isakmp_vid + vid_data_len)
  let payload := memcpy_at payload 0
    (isakmp_generic_image next (sizeof_isakmp_vid + vid_data_len))
  let payload := memcpy_at payload sizeof_isakmp_vid vid_data
  (payload, sizeof_isakmp_vid + vid_data_len)

/-- The static variables of `add_vid`. -/
structure vid_state where
  first_vid : Int
  vid_start : List Nat
  cur_offset : Nat
  end_offset : Nat

/-- The static variables as the program starts: `first_vid = 1`, `vid_start = NULL`,
the two offsets zero-initialised. -/
def vid_state_init : vid_state :=
  { first_vid := 1, vid_start := [], cur_offset := 0, end_offset := 0 }

/-- The function `add_vid`: the new static state, and the returned pointer with the
value stored through `length` (`none` for the NULL returned while appending).
Finalising with a NULL `vid_start` is a write through a null pointer in C; here it
leaves the empty buffer as it is. -/
def add_vid (finished : Int) (vid_data : List Nat) (s : vid_state) :
    vid_state × Option (List Nat × Nat) :=
  if finished = 0 then
    let made := make_vid ISAKMP_NEXT_VID vid_data
    let vid := made.1
    let len := made.2
    if s.first_vid ≠ 0 then
      let cur_offset := 0
      let end_offset := len
      let vid_start := Realloc [] end_offset
      let vid_start := memcpy_at vid_start 0 vid
      ({ first_vid := 0, vid_start := vid_start, cur_offset := cur_offset,
         end_offset := end_offset }, none)
    else
      let cur_offset := s.end_offset
      let end_offset := s.end_offset + len
      let vid_start := Realloc s.vid_start end_offset
      let vid_start := memcpy_at vid_start cur_offset vid
      ({ first_vid := s.first_vid, vid_start := vid_start, cur_offset := cur_offset,
         end_offset := end_offset }, none)
  else
    -- hdr->isavid_np = ISAKMP_NEXT_NONE through the overlay at vid_start + cur_offset
    let vid_start := s.vid_start.set s.cur_offset ISAKMP_NEXT_NONE
    ({ s with vid_start := vid_start }, some (vid_start, s.end_offset))

/-- The static state after one `add_vid(0, ...)` call per element of `bodies`, in
order. -/
def add_vid_appends (bodies : List (List Nat)) (s : vid_state) : vid_state :=
  bodies.foldl (fun st b => (add_vid 0 b st).1) s

/-- From a fresh accumulator: one `add_vid(0, ...)` per element of `bodies`, then
`add_vid(1, ...)`; the returned buffer and length. -/
def add_vid_build (bodies : List (List Nat)) : Option (List Nat × Nat) :=
  (add_vid 1 [] (add_vid_appends bodies vid_state_init)).2

/-- The bytes the specification lists for a Vendor ID payload: next, a zero byte,
the length 4 + body length in two big-endian bytes, then the body. -/
def vid_wire (next : Nat) (body : List Nat) : List Nat :=
  [next, 0, (4 + body.length) / 256, (4 + body.length) % 256] ++ body

/-- The chain the specification describes for the Vendor ID bodies: next-payload
13 on all payloads but the last, 0 on the last. -/
def expected_vids : List (List Nat) → List (List Nat)
  | [] => []
  | [b] => [vid_wire 0 b]
  | b :: c :: bs => vid_wire 13 b :: expected_vids (c :: bs)

/-- The offset at which a payload starts when the payloads for `pre` come before
it: the sum of 4 + body length over `pre`. -/
def vid_offset (pre : List (List Nat)) : Nat :=
  (pre.map (fun b => 4 + b.length)).sum

/-! ## make_ke, make_nonce, make_id -/

/-- The bytes the loop `for (i=0; i<n; i++) *(p++) = (unsigned char) (rand() & 0xff)`
writes, where `rnd i` is the value the i-th call of `rand()` returns. -/
def rand_bytes (rnd : Nat → Nat) (n : Nat) : List Nat :=
  (List.range n).map (fun i => rnd i % 256)

/-- Modelled from the spec: `err_msg` (defined outside isakmp.c) reports the error
and fails the build call; control does not come back, so the caller gets no buffer. -/
def err_msg {α : Type} : Option α := none

/-- The function `make_ke`: the payload and the value stored through `length`, or
`none` when `err_msg` is called. -/
def make_ke (rnd : Nat → Nat) (next kx_data_len : Nat) : Option (List Nat × Nat) :=
  if kx_data_len % 4 ≠ 0 then err_msg
  else
    let payload := Realloc [] (sizeof_isakmp_kx + kx_data_len)
    -- kx_data = payload + sizeof(struct isakmp_kx)
    let payload := memcpy_at payload sizeof_isakmp_kx (rand_bytes rnd kx_data_len)
    let payload := memcpy_at payload 0
      (isakmp_generic_image next (sizeof_isakmp_kx + kx_data_len))
    some (payload, sizeof_isakmp_kx + kx_data_len)

/-- The function `make_nonce`: the payload and the value stored through `length`.
The random bytes are written from `payload + sizeof(struct isakmp_vid)` on. -/
def make_nonce (rnd : Nat → Nat) (next nonce_len : Nat) : List Nat × Nat :=
  let payload := Realloc [] (sizeof_isakmp_nonce + nonce_len)
  let payload := memcpy_at payload 0
    (isakmp_generic_image next (sizeof_isakmp_nonce + nonce_len))
  -- cp = payload + sizeof(struct isakmp_vid)
  let payload := memcpy_at payload sizeof_isakmp_vid (rand_bytes rnd nonce_len)
  (payload, sizeof_isakmp_nonce + nonce_len)

/-- Memory image of a `struct isakmp_id` after `memset` to zero and the assignments
of `make_id`. Modelled from the spec: the field layout of the struct, declared in
ike-scan.h. -/
def isakmp_id_image (np length idtype doi_specific_a doi_specific_b : Nat) : List Nat :=
  [np % 256, 0] ++ htons length ++ [idtype % 256, doi_specific_a % 256] ++ htons doi_specific_b

/-- The function `make_id`: the payload and the value stored through `length`;
`id_data` is the `id_data_len` bytes behind the pointer of that name. -/
def make_id (next idtype : Nat) (id_data : List Nat) : List Nat × Nat :=
  let id_data_len := id_data.length
  let payload := Realloc [] (sizeof_isakmp_id + id_data_len)
  let payload := memcpy_at payload 0
    (isakmp_id_image next (sizeof_isakmp_id + id_data_len) idtype 17 500)
  let payload := memcpy_at payload sizeof_isakmp_id id_data
  (payload, sizeof_isakmp_id + id_data_len)

/-- The 16-bit big-endian value held in bytes 2 and 3 of a buffer. -/
def length_field (buf : List Nat) : Nat := buf.getD 2 0 * 256 + buf.getD 3 0

/-! ## Statements of the specification for the decoders -/

/-- The notify message names in the order the specification enumerates them, for
the types 0 to 30. -/
def rfc2408_notify_names : List String :=
  ["UNSPECIFIED", "INVALID-PAYLOAD-TYPE", "DOI-NOT-SUPPORTED", "SITUATION-NOT-SUPPORTED",
   "INVALID-COOKIE", "INVALID-MAJOR-VERSION", "INVALID-MINOR-VERSION", "INVALID-EXCHANGE-TYPE",
   "INVALID-FLAGS", "INVALID-MESSAGE-ID", "INVALID-PROTOCOL-ID", "INVALID-SPI",
   "INVALID-TRANSFORM-ID", "ATTRIBUTES-NOT-SUPPORTED", "NO-PROPOSAL-CHOSEN",
   "BAD-PROPOSAL-SYNTAX", "PAYLOAD-MALFORMED", "INVALID-KEY-INFORMATION",
   "INVALID-ID-INFORMATION", "INVALID-CERT-ENCODING", "INVALID-CERTIFICATE",
   "CERT-TYPE-UNSUPPORTED", "INVALID-CERT-AUTHORITY", "INVALID-HASH-INFORMATION",
   "AUTHENTICATION-FAILED", "INVALID-SIGNATURE", "ADDRESS-NOTIFICATION", "NOTIFY-SA-LIFETIME",
   "CERTIFICATE-UNAVAILABLE", "UNSUPPORTED-EXCHANGE-TYPE", "UNEQUAL-PAYLOAD-LENGTHS"]

/-- The message `process_sa` returns for a payload it does not decode. -/
def sa_too_short : String := "IKE Handshake returned (packet too short to decode)"

/-- The summary of the specification for exchange type `t` and a proposal that
declares `k` transforms. -/
def sa_summary (t : Int) (k : Nat) : String :=
  if k = 1 then sa_base t else sa_base t ++ " (" ++ toString k ++ " transforms)"

/-- A 20-byte SA payload prefix whose header declares 44 bytes, with a proposal of
three transforms. -/
def sa_example_mem : Nat → Nat :=
  mem_of [0, 0, 0, 44, 0, 0, 0, 1, 0, 0, 0, 1, 0, 0, 0, 32, 1, 1, 0, 3]

/-! ## Build-then-decode round trip -/

/-- Modelled from the spec: the datagram of the round-trip property, assembled by
the caller outside isakmp.c: the ISAKMP header with next-payload SA, the SA header
with next-payload NONE, the proposal header and the finalised transforms `trans`
of total length `tlen`, each length computed from the parts that follow. -/
def sa_datagram (host_be : Bool) (xchg notrans : Nat) (trans : List Nat) (tlen : Nat) :
    List Nat :=
  make_isakmp_hdr host_be xchg ISAKMP_NEXT_SA
      (sizeof_isakmp_hdr + (sizeof_isakmp_sa + (sizeof_isakmp_proposal + tlen)))
  ++ make_sa_hdr ISAKMP_NEXT_NONE (sizeof_isakmp_sa + (sizeof_isakmp_proposal + tlen))
  ++ make_prop (sizeof_isakmp_proposal + tlen) notrans
  ++ trans

/-- Modelled from the spec: build then decode. The transforms for `ps` are appended
and finalised, the datagram is assembled, `process_isakmp_hdr` runs on it with its
whole length remaining, and `process_sa` runs on the remaining slice with the
exchange type the header decoder recorded. The result is what the header decoder
stored and the SA summary. -/
def round_trip (host_be : Bool) (xchg : Nat) (ps : List trans_params) :
    Option (hdr_result × String) :=
  match add_trans_build ps with
  | none => none
  | some (tbuf, tlen) =>
    let d := sa_datagram host_be xchg ps.length tbuf tlen
    let h := (process_isakmp_hdr (mem_of d) 0 d.length).val
    match h.ret with
    | none => none
    | some cp => some (h, (process_sa (mem_of d) cp h.len h.type).val)

/-- The length `add_trans` returns for the finalised transforms of `ps`. -/
def trans_chain_length (ps : List trans_params) : Nat :=
  ((add_trans_build ps).getD ([], 0)).2

/-- A transform with the four mandatory attributes and a GSS identity of 65488
bytes; its payload has 65516 bytes. -/
def trans_params_long_gss : trans_params :=
  { cipher := 5, keylen := 0, hash := 2, auth := 1, group := 2, lifetime := 0, lifesize := 0,
    gss_id_flag := 1, gss_data := List.replicate 65488 0 }

/-! ## Iterating skip_payload -/

/-- Modelled from the spec: the payload walk, which calls `skip_payload` again and
again on the cursor and remaining length the previous call gave, until a call
reports end-of-chain. The result is the list of cursors the advancing calls
returned, in order; `none` when `fuel` calls were made without reaching
end-of-chain. -/
def skip_walk (mem : Nat → Nat) : Nat → Nat → Nat → Option (List Nat)
  | 0, _, _ => none
  | fuel + 1, cp, len =>
    match (skip_payload mem cp len).val.ret with
    | none => some []
    | some cp2 =>
      (skip_walk mem fuel cp2 (skip_payload mem cp len).val.len).map (fun cs => cp2 :: cs)

/-! ## Theorems -/

/-- C1: for parameters within their C types and a total length that fits the 16-bit
length field, make_trans returns exactly the bytes the specification lists, in that
order, and reports their number as the length. -/
theorem make_trans_wire (next number cipher keylen hash auth group lifetime lifesize : Nat)
    (gss_id_flag : Int) (gss_data : List Nat)
    (hnext : next < 256) (hnumber : number < 256) (hcipher : cipher < 65536)
    (hkeylen : keylen < 65536) (hhash : hash < 65536) (hauth : auth < 65536)
    (hgroup : group < 65536) (hlifetime : lifetime < 4294967296)
    (hlifesize : lifesize < 4294967296)
    (hfit : trans_total keylen lifetime lifesize gss_id_flag gss_data < 65536) :
    make_trans next number cipher keylen hash auth group lifetime lifesize gss_id_flag gss_data
      = (trans_wire next number cipher keylen hash auth group lifetime lifesize
            gss_id_flag gss_data,
         trans_total keylen lifetime lifesize gss_id_flag gss_data)
    ∧ (trans_wire next number cipher keylen hash auth group lifetime lifesize
            gss_id_flag gss_data).length
        = trans_total keylen lifetime lifesize gss_id_flag gss_data := by
  have hk : keylen % 65536 = keylen := Nat.mod_eq_of_lt hkeylen
  have hlt : lifetime % 4294967296 = lifetime := Nat.mod_eq_of_lt hlifetime
  have hls : lifesize % 4294967296 = lifesize := Nat.mod_eq_of_lt hlifesize
  have e16 : ∀ v, v < 65536 → v / 256 % 256 = v / 256 := fun v hv =>
    Nat.mod_eq_of_lt (by omega)
  have e32 : ∀ v, v < 4294967296 → v / 16777216 % 256 = v / 16777216 := fun v hv =>
    Nat.mod_eq_of_lt (by omega)
  unfold trans_total at hfit
  constructor
  · unfold make_trans trans_wire trans_total
    simp only [hk, hlt, hls, isakmp_attribute_image, isakmp_attribute_l32_image,
      isakmp_transform_image, htons, htonl, KEY_IKE, sizeof_isakmp_transform,
      sizeof_isakmp_attribute, sizeof_isakmp_attribute_l32]
    by_cases h1 : keylen = 0 <;> by_cases h2 : lifetime = 0 <;> by_cases h3 : lifesize = 0 <;>
      by_cases h4 : gss_id_flag = 0 <;>
      simp [h1, h2, h3, h4, Nat.mod_eq_of_lt hnext, Nat.mod_eq_of_lt hnumber,
        e16 _ hcipher, e16 _ hhash, e16 _ hauth, e16 _ hgroup, e16 _ hkeylen,
        e32 _ hlifetime, e32 _ hlifesize] <;>
      simp [h1, h2, h3, h4] at hfit <;> omega
  · unfold trans_wire trans_total
    by_cases h1 : keylen = 0 <;> by_cases h2 : lifetime = 0 <;> by_cases h3 : lifesize = 0 <;>
      by_cases h4 : gss_id_flag = 0 <;> simp [h1, h2, h3, h4] <;> omega

/-- C1, at the transform of scenario S2: AES with a 128-bit key, SHA1, pre-shared
key, group 2, a lifetime of 28800 seconds. -/
theorem make_trans_wire_witness :
    make_trans 0 1 7 128 2 1 2 28800 0 0 []
      = ([0, 0, 0, 40, 1, 1, 0, 0, 0x80, 0x01, 0, 7, 0x80, 0x02, 0, 2, 0x80, 0x03, 0, 1,
          0x80, 0x04, 0, 2, 0x80, 0x0e, 0, 128, 0x80, 0x0b, 0, 1, 0x00, 0x0c, 0, 4,
          0, 0, 0x70, 0x80], 40) :=
  (make_trans_wire 0 1 7 128 2 1 2 28800 0 0 [] (by decide) (by decide) (by decide)
    (by decide) (by decide) (by decide) (by decide) (by decide) (by decide) (by decide)).1

/-! ### Reads and values of the memory primitives -/

@[simp] theorem Traced.val_pure {α : Type} (a : α) : (pure a : Traced α).val = a := rfl

@[simp] theorem Traced.reads_pure {α : Type} (a : α) : (pure a : Traced α).reads = [] := rfl

@[simp] theorem Traced.val_bind {α β : Type} (x : Traced α) (f : α → Traced β) :
    (x >>= f).val = (f x.val).val := rfl

@[simp] theorem Traced.reads_bind {α β : Type} (x : Traced α) (f : α → Traced β) :
    (x >>= f).reads = x.reads ++ (f x.val).reads := rfl

@[simp] theorem rd8_val (mem : Nat → Nat) (a : Nat) : (rd8 mem a).val = mem a % 256 := rfl

@[simp] theorem rd8_reads (mem : Nat → Nat) (a : Nat) : (rd8 mem a).reads = [a] := rfl

@[simp] theorem rd16_val (mem : Nat → Nat) (a : Nat) :
    (rd16 mem a).val = mem a % 256 * 256 + mem (a + 1) % 256 := rfl

@[simp] theorem rd16_reads (mem : Nat → Nat) (a : Nat) : (rd16 mem a).reads = [a, a + 1] := rfl

@[simp] theorem rd32_val (mem : Nat → Nat) (a : Nat) :
    (rd32 mem a).val = mem a % 256 * 16777216 + mem (a + 1) % 256 * 65536
      + mem (a + 2) % 256 * 256 + mem (a + 3) % 256 := rfl

@[simp] theorem rd32_reads (mem : Nat → Nat) (a : Nat) :
    (rd32 mem a).reads = [a, a + 1, a + 2, a + 3] := rfl

/-! ### skip_payload -/

/-- C3: skip_payload reports end-of-chain (NULL, remaining 0, next NONE) exactly when
the remaining length is below 4, or the declared length is at least the remaining
length, or the declared length is below 4, or the next-payload byte is 0; in every
other case it returns the cursor advanced by the declared length, the remaining
length reduced by the declared length, and the next-payload byte as next. -/
theorem skip_payload_spec (mem : Nat → Nat) (cp len : Nat) :
    ((skip_payload mem cp len).val = { ret := none, len := 0, next := 0 }
      ↔ (len < 4 ∨ mem (cp + 2) % 256 * 256 + mem (cp + 3) % 256 ≥ len
          ∨ mem (cp + 2) % 256 * 256 + mem (cp + 3) % 256 < 4 ∨ mem cp % 256 = 0))
    ∧ (¬ (len < 4 ∨ mem (cp + 2) % 256 * 256 + mem (cp + 3) % 256 ≥ len
          ∨ mem (cp + 2) % 256 * 256 + mem (cp + 3) % 256 < 4 ∨ mem cp % 256 = 0)
        → (skip_payload mem cp len).val
            = { ret := some (cp + (mem (cp + 2) % 256 * 256 + mem (cp + 3) % 256)),
                len := len - (mem (cp + 2) % 256 * 256 + mem (cp + 3) % 256),
                next := (mem cp % 256 : Nat) }) := by
  unfold skip_payload
  simp only [sizeof_isakmp_generic, ISAKMP_NEXT_NONE]
  by_cases h1 : len < 4
  · simp [h1]
  · by_cases h2 : mem (cp + 2) % 256 * 256 + mem (cp + 2 + 1) % 256 ≥ len
    · simp [h1, h2]
    · by_cases h3 : mem (cp + 2) % 256 * 256 + mem (cp + 2 + 1) % 256 < 4
      · simp [h1, h2, h3]
      · by_cases h4 : mem cp % 256 = 0
        · simp [h1, h2, h3, h4]
        · simp [h1, h2, h3, h4]

/-- C3, at a concrete payload: a 6-byte payload with next-payload 13 and 10 bytes
remaining is skipped. -/
theorem skip_payload_spec_witness :
    (skip_payload (mem_of [13, 0, 0, 6, 1, 2, 0, 0, 0, 4]) 0 10).val
      = { ret := some 6, len := 4, next := 13 } :=
  (skip_payload_spec (mem_of [13, 0, 0, 6, 1, 2, 0, 0, 0, 4]) 0 10).2 (by decide)

/-! ### Reads of the header decoders -/

/-- C6: skip_payload, process_isakmp_hdr and process_sa read only addresses inside
the `len` bytes that start at their cursor. -/
theorem header_reads_in_bounds (mem : Nat → Nat) (cp len : Nat) (type : Int) :
    (∀ a ∈ (skip_payload mem cp len).reads, cp ≤ a ∧ a < cp + len)
    ∧ (∀ a ∈ (process_isakmp_hdr mem cp len).reads, cp ≤ a ∧ a < cp + len)
    ∧ (∀ a ∈ (process_sa mem cp len type).reads, cp ≤ a ∧ a < cp + len) := by
  refine ⟨?_, ?_, ?_⟩
  · unfold skip_payload
    simp only [sizeof_isakmp_generic, ISAKMP_NEXT_NONE]
    intro a ha
    by_cases h1 : len < 4
    · simp [h1] at ha
    · by_cases h2 : mem (cp + 2) % 256 * 256 + mem (cp + 2 + 1) % 256 ≥ len
      · simp [h1, h2] at ha
        omega
      · by_cases h3 : mem (cp + 2) % 256 * 256 + mem (cp + 2 + 1) % 256 < 4
        · simp [h1, h2, h3] at ha
          omega
        · by_cases h4 : mem cp % 256 = 0
          · simp [h1, h2, h3, h4] at ha
            omega
          · simp [h1, h2, h3, h4] at ha
            omega
  · unfold process_isakmp_hdr
    simp only [sizeof_isakmp_hdr, ISAKMP_NEXT_NONE, ISAKMP_XCHG_NONE]
    intro a ha
    by_cases h1 : len < 28
    · simp [h1] at ha
    · by_cases h2 : (rd32 mem (cp + 24)).val < 28
      · simp only [h1, h2, if_true, if_false, Traced.reads_bind, rd32_reads,
          Traced.reads_pure] at ha
        simp at ha
        omega
      · by_cases h3 : mem (cp + 16) % 256 = 0
        · simp only [h1, h2, h3, if_true, if_false, Traced.reads_bind, rd32_reads,
            Traced.reads_pure, rd8_reads, rd8_val] at ha
          simp at ha
          omega
        · simp only [h1, h2, h3, if_true, if_false, Traced.reads_bind, rd32_reads,
            Traced.reads_pure, rd8_reads, rd8_val] at ha
          simp at ha
          omega
  · unfold process_sa
    simp only [sizeof_isakmp_sa, sizeof_isakmp_proposal]
    intro a ha
    by_cases h1 : len < 12 + 8
    · simp [h1] at ha
    · by_cases h2 : (rd16 mem (cp + 2)).val < 12 + 8
      · simp only [h1, h2, if_true, if_false, Traced.reads_bind, rd16_reads,
          Traced.reads_pure] at ha
        simp at ha
        omega
      · by_cases h3 : mem (cp + 12 + 7) % 256 = 1
        · simp only [h1, h2, h3, if_true, if_false, Traced.reads_bind, rd16_reads,
            Traced.reads_pure, rd8_reads, rd8_val, ne_eq, not_true_eq_false] at ha
          simp at ha
          omega
        · simp only [h1, h2, h3, if_true, if_false, Traced.reads_bind, rd16_reads,
            Traced.reads_pure, rd8_reads, rd8_val, ne_eq, not_false_eq_true] at ha
          simp at ha
          omega

/-! ### process_sa -/

theorem fmt_u_of_nonneg (t : Int) (h0 : 0 ≤ t) (h1 : t < 4294967296) :
    fmt_u t = toString t := by
  obtain ⟨m, rfl⟩ := Int.eq_ofNat_of_zero_le h0
  have hm : m < 4294967296 := by omega
  unfold fmt_u
  have e : ((m : Int) % 4294967296).toNat = m := by omega
  rw [e]
  rfl

theorem sa_msg_eq_sa_base (t : Int) (h0 : 0 ≤ t) (h1 : t < 4294967296) :
    (if t = ISAKMP_XCHG_IDPROT then "Main Mode Handshake returned"
      else if t = ISAKMP_XCHG_AGGR then "Aggressive Mode Handshake returned"
      else "UNKNOWN Mode Handshake returned (" ++ fmt_u t ++ ")") = sa_base t := by
  unfold sa_base ISAKMP_XCHG_IDPROT ISAKMP_XCHG_AGGR
  rw [fmt_u_of_nonneg t h0 h1]

/-- C10: for a non-negative exchange type t, process_sa returns the too-short
message when fewer than 20 bytes remain or the SA declares fewer than 20 bytes;
otherwise the mode string of t alone when the number-of-transforms byte k is 1,
and followed by " (k transforms)" when k is not 1. -/
theorem process_sa_spec (mem : Nat → Nat) (cp len : Nat) (t : Int)
    (h0 : 0 ≤ t) (h1 : t < 2147483648) :
    ((len < 20 ∨ mem (cp + 2) % 256 * 256 + mem (cp + 3) % 256 < 20) →
        (process_sa mem cp len t).val = "IKE Handshake returned (packet too short to decode)")
    ∧ (¬ (len < 20 ∨ mem (cp + 2) % 256 * 256 + mem (cp + 3) % 256 < 20) →
        (process_sa mem cp len t).val
          = if mem (cp + 19) % 256 = 1 then sa_base t
            else sa_base t ++ " (" ++ toString (mem (cp + 19) % 256) ++ " transforms)") := by
  have hb := sa_msg_eq_sa_base t h0 (by omega)
  unfold process_sa
  simp only [sizeof_isakmp_sa, sizeof_isakmp_proposal, hb]
  have e19 : cp + 12 + 7 = cp + 19 := by omega
  have e3 : cp + 2 + 1 = cp + 3 := by omega
  constructor
  · intro h
    by_cases hl : len < 12 + 8
    · simp [hl]
    · have h2 : mem (cp + 2) % 256 * 256 + mem (cp + 3) % 256 < 12 + 8 := by omega
      simp [hl, e3, h2]
  · intro h
    have hl : ¬ len < 12 + 8 := by omega
    have h2 : ¬ mem (cp + 2) % 256 * 256 + mem (cp + 3) % 256 < 12 + 8 := by omega
    by_cases hk : mem (cp + 19) % 256 = 1
    · simp [hl, e3, e19, h2, hk]
    · simp [hl, e3, e19, h2, hk, fmt_d]

/-- C10, at a concrete payload: main mode, three transforms. -/
theorem process_sa_spec_witness :
    (process_sa (mem_of [0, 0, 0, 44, 0, 0, 0, 1, 0, 0, 0, 1, 0, 0, 0, 32, 1, 1, 0, 3]) 0 20 2).val
      = "Main Mode Handshake returned (3 transforms)" :=
  (process_sa_spec (mem_of [0, 0, 0, 44, 0, 0, 0, 1, 0, 0, 0, 1, 0, 0, 0, 32, 1, 1, 0, 3]) 0 20 2
    (by decide) (by decide)).2 (by decide)

/-! ### add_trans -/

theorem make_trans_shape (cipher keylen hash auth group lifetime lifesize : Nat)
    (gss_id_flag : Int) (gss_data : List Nat) :
    ∃ (rest : List Nat) (len : Nat), rest.length + 5 = len ∧ ∀ next number,
      make_trans next number cipher keylen hash auth group lifetime lifesize gss_id_flag gss_data
        = (next % 256 :: 0 :: (len / 256 % 256) :: (len % 256) :: (number % 256) :: rest, len) := by
  refine ⟨(make_trans 0 0 cipher keylen hash auth group lifetime lifesize gss_id_flag
      gss_data).1.drop 5,
    (make_trans 0 0 cipher keylen hash auth group lifetime lifesize gss_id_flag gss_data).2,
    ?_, ?_⟩
  · unfold make_trans
    simp only [isakmp_attribute_image, isakmp_attribute_l32_image,
      isakmp_transform_image, htons, htonl, KEY_IKE, sizeof_isakmp_transform,
      sizeof_isakmp_attribute, sizeof_isakmp_attribute_l32]
    by_cases h1 : keylen % 65536 = 0 <;> by_cases h2 : lifetime % 4294967296 = 0 <;>
      by_cases h3 : lifesize % 4294967296 = 0 <;> by_cases h4 : gss_id_flag = 0 <;>
      simp [h1, h2, h3, h4] <;> omega
  · intro next number
    unfold make_trans
    simp only [isakmp_attribute_image, isakmp_attribute_l32_image,
      isakmp_transform_image, htons, htonl, KEY_IKE, sizeof_isakmp_transform,
      sizeof_isakmp_attribute, sizeof_isakmp_attribute_l32]
    by_cases h1 : keylen % 65536 = 0 <;> by_cases h2 : lifetime % 4294967296 = 0 <;>
      by_cases h3 : lifesize % 4294967296 = 0 <;> by_cases h4 : gss_id_flag = 0 <;>
      simp [h1, h2, h3, h4]

theorem make_trans_length (next number : Nat) (p : trans_params) :
    (make_trans next number p.cipher p.keylen p.hash p.auth p.group p.lifetime p.lifesize
      p.gss_id_flag p.gss_data).1.length
    = (make_trans next number p.cipher p.keylen p.hash p.auth p.group p.lifetime p.lifesize
      p.gss_id_flag p.gss_data).2 := by
  obtain ⟨rest, len, hlen, h⟩ := make_trans_shape p.cipher p.keylen p.hash p.auth p.group
    p.lifetime p.lifesize p.gss_id_flag p.gss_data
  rw [h]
  simp
  omega

theorem make_trans_set_next (number : Nat) (p : trans_params) :
    (make_trans 3 number p.cipher p.keylen p.hash p.auth p.group p.lifetime p.lifesize
      p.gss_id_flag p.gss_data).1.set 0 0
    = (make_trans 0 number p.cipher p.keylen p.hash p.auth p.group p.lifetime p.lifesize
      p.gss_id_flag p.gss_data).1 := by
  obtain ⟨rest, len, _, h⟩ := make_trans_shape p.cipher p.keylen p.hash p.auth p.group
    p.lifetime p.lifesize p.gss_id_flag p.gss_data
  rw [h, h]
  simp

theorem make_trans_bytes_0_4 (next number : Nat) (p : trans_params) :
    (make_trans next number p.cipher p.keylen p.hash p.auth p.group p.lifetime p.lifesize
      p.gss_id_flag p.gss_data).1.getD 4 0 = number % 256
    ∧ (make_trans next number p.cipher p.keylen p.hash p.auth p.group p.lifetime p.lifesize
      p.gss_id_flag p.gss_data).1.getD 0 0 = next % 256 := by
  obtain ⟨rest, len, _, h⟩ := make_trans_shape p.cipher p.keylen p.hash p.auth p.group
    p.lifetime p.lifesize p.gss_id_flag p.gss_data
  rw [h]
  simp

theorem memcpy_at_Realloc (buf src : List Nat) :
    memcpy_at (Realloc buf (buf.length + src.length)) buf.length src = buf ++ src := by
  unfold memcpy_at Realloc
  have h1 : List.take (buf.length + src.length) buf = buf :=
    List.take_of_length_le (by omega)
  have h2 : buf.length + src.length - buf.length = src.length := by omega
  rw [h1, h2, List.take_left, List.drop_of_length_le (by simp)]
  simp

/-- One appending call on a state whose buffer has `end_offset` bytes (none before
the first transform). -/
theorem add_trans_append_step (p : trans_params) (s : trans_state)
    (hlen : s.trans_start.length = s.end_offset)
    (hfirst : s.first_transform ≠ 0 → s.end_offset = 0) :
    (add_trans 0 p s).1
      = { first_transform := 0,
          trans_start := s.trans_start ++ (make_trans 3 s.trans_no p.cipher p.keylen p.hash
            p.auth p.group p.lifetime p.lifesize p.gss_id_flag p.gss_data).1,
          cur_offset := s.end_offset,
          end_offset := s.end_offset + (make_trans 3 s.trans_no p.cipher p.keylen p.hash
            p.auth p.group p.lifetime p.lifesize p.gss_id_flag p.gss_data).1.length,
          trans_no := s.trans_no + 1 } := by
  have hl := make_trans_length 3 s.trans_no p
  have hm := memcpy_at_Realloc s.trans_start (make_trans 3 s.trans_no p.cipher p.keylen
    p.hash p.auth p.group p.lifetime p.lifesize p.gss_id_flag p.gss_data).1
  rw [hlen, hl] at hm
  unfold add_trans
  by_cases hf : s.first_transform = 0
  · simp only [if_true, hf, ne_eq, not_true_eq_false, if_false, hm, hl]
  · have he := hfirst hf
    have hnil : s.trans_start = [] := List.length_eq_zero.mp (by omega)
    rw [hnil, he] at hm
    simp only [Nat.zero_add, List.nil_append] at hm
    simp only [if_true, hf, ne_eq, not_false_eq_true, hm, hl, hnil, he, Nat.zero_add,
      List.nil_append]

/-- The static state after a non-empty run of appending calls. -/
theorem add_trans_appends_state (ps : List trans_params) :
    ∀ (p : trans_params) (s : trans_state), s.trans_start.length = s.end_offset →
      (s.first_transform ≠ 0 → s.end_offset = 0) →
      (add_trans_appends (p :: ps) s).trans_start
          = s.trans_start ++ (appended_transforms s.trans_no (p :: ps)).flatten
      ∧ (add_trans_appends (p :: ps) s).end_offset
          = (add_trans_appends (p :: ps) s).trans_start.length
      ∧ (add_trans_appends (p :: ps) s).cur_offset
          = s.end_offset
            + ((appended_transforms s.trans_no (p :: ps)).dropLast).flatten.length := by
  induction ps with
  | nil =>
    intro p s h1 h2
    have hstep := add_trans_append_step p s h1 h2
    have e : add_trans_appends [p] s = (add_trans 0 p s).1 := rfl
    rw [e, hstep]
    simp [appended_transforms, h1]
  | cons q qs ih =>
    intro p s h1 h2
    have hstep := add_trans_append_step p s h1 h2
    have e : add_trans_appends (p :: q :: qs) s
        = add_trans_appends (q :: qs) (add_trans 0 p s).1 := rfl
    rw [e]
    obtain ⟨a, b, c⟩ := ih q (add_trans 0 p s).1 (by rw [hstep]; simp [h1]) (by rw [hstep]; simp)
    refine ⟨?_, b, ?_⟩
    · rw [a, hstep]
      simp [appended_transforms]
    · rw [c, hstep]
      simp [appended_transforms]
      omega

theorem expected_transforms_flatten (ps : List trans_params) :
    ∀ (p : trans_params) (k : Nat),
      (appended_transforms k (p :: ps)).flatten.set
          ((appended_transforms k (p :: ps)).dropLast).flatten.length 0
        = (expected_transforms k (p :: ps)).flatten := by
  induction ps with
  | nil =>
    intro p k
    have h := make_trans_set_next k p
    obtain ⟨rest, len, _, hs⟩ := make_trans_shape p.cipher p.keylen p.hash p.auth p.group
      p.lifetime p.lifesize p.gss_id_flag p.gss_data
    simp only [appended_transforms, expected_transforms, List.dropLast_single,
      List.flatten_nil, List.length_nil, List.flatten_cons, List.append_nil]
    exact h
  | cons q qs ih =>
    intro p k
    have h := ih q (k + 1)
    simp only [appended_transforms, expected_transforms, List.flatten_cons,
      List.dropLast_cons₂, List.length_append] at h ⊢
    rw [List.set_append_right _ _ (by omega)]
    simp only [Nat.add_sub_cancel_left]
    rw [h]

theorem expected_transforms_bytes (ps : List trans_params) :
    ∀ (k i : Nat), i < ps.length →
      ((expected_transforms k ps).getD i []).getD 4 0 = (k + i) % 256
      ∧ ((expected_transforms k ps).getD i []).getD 0 0
          = (if i + 1 = ps.length then 0 else 3) := by
  induction ps with
  | nil => intro k i h; simp at h
  | cons p ps ih =>
    intro k i h
    cases ps with
    | nil =>
      have hi : i = 0 := by simp at h; omega
      subst hi
      have hb := make_trans_bytes_0_4 0 k p
      simpa [expected_transforms] using hb
    | cons q qs =>
      cases i with
      | zero =>
        have hb := make_trans_bytes_0_4 3 k p
        simpa [expected_transforms] using hb
      | succ j =>
        have hj : j < (q :: qs).length := by simp at h ⊢; omega
        have := ih (k + 1) j hj
        simp only [expected_transforms, List.getD_cons_succ, List.length_cons] at this ⊢
        rw [this.1, this.2]
        constructor
        · congr 1; omega
        · simp

/-- C2 (amended): from a fresh accumulator, for 1 to 255 appended parameter sets
followed by a finalising call, the returned buffer is the concatenation in append
order of the transforms built by make_trans, the returned length is the sum of
their lengths, the i-th transform carries transform number i, transforms before
the last carry next-payload 3 and the last one carries 0. -/
theorem add_trans_chain_upto_255 (ps : List trans_params) (hne : ps ≠ [])
    (hle : ps.length ≤ 255) : add_trans_chain ps := by
  obtain ⟨p, qs, rfl⟩ := List.exists_cons_of_ne_nil hne
  obtain ⟨a, b, c⟩ := add_trans_appends_state qs p trans_state_init rfl (fun _ => rfl)
  have hflat := expected_transforms_flatten qs p 1
  constructor
  · unfold add_trans_build add_trans
    simp only [one_ne_zero, if_false]
    rw [b, a, c]
    simp only [trans_state_init, List.nil_append, Nat.zero_add, List.length_set]
    rw [hflat]
    have hl : (appended_transforms 1 (p :: qs)).flatten.length
        = (expected_transforms 1 (p :: qs)).flatten.length := by
      rw [← hflat, List.length_set]
    rw [hl, List.length_flatten]
  · intro i hi
    have h := expected_transforms_bytes (p :: qs) 1 i hi
    refine ⟨?_, h.2⟩
    rw [h.1]
    have : 1 + i < 256 := by omega
    rw [Nat.mod_eq_of_lt this]
    omega

/-- C2 (amended), at two parameter sets. -/
theorem add_trans_chain_upto_255_witness :
    add_trans_chain [trans_params_basic, trans_params_basic] :=
  add_trans_chain_upto_255 [trans_params_basic, trans_params_basic] (by simp) (by decide)

/-- C2 as stated fails for 256 appended transforms: the transform-number byte of
the 256th transform is 0, not 256. -/
theorem add_trans_chain_fails_at_256 :
    ¬ add_trans_chain (List.replicate 256 trans_params_basic) := by
  intro h
  have hlen : 255 < (List.replicate 256 trans_params_basic).length := by
    rw [List.length_replicate]
    omega
  have h1 := (h.2 255 hlen).1
  have h2 := (expected_transforms_bytes (List.replicate 256 trans_params_basic) 1 255 hlen).1
  rw [h2] at h1
  omega

/-! ### process_vid -/

theorem mem_bytes_length (mem : Nat → Nat) (n : Nat) :
    ∀ a, (mem_bytes mem a n).length = n := by
  induction n with
  | zero => intro a; rfl
  | succ n ih => intro a; simp [mem_bytes, ih]

theorem mem_bytes_take (mem : Nat → Nat) (n : Nat) :
    ∀ a m, m ≤ n → (mem_bytes mem a n).take m = mem_bytes mem a m := by
  induction n with
  | zero => intro a m h; have : m = 0 := by omega
            subst this; rfl
  | succ n ih =>
    intro a m h
    cases m with
    | zero => rfl
    | succ m => simp [mem_bytes, ih (a + 1) m (by omega)]

theorem memcmp_eq_val (mem : Nat → Nat) (ds : List Nat) :
    ∀ a, (memcmp_eq mem a ds).val = true ↔ ds = mem_bytes mem a ds.length := by
  induction ds with
  | nil => intro a; simp [memcmp_eq, mem_bytes]
  | cons d ds ih =>
    intro a
    by_cases h : mem a % 256 = d
    · simp [memcmp_eq, mem_bytes, h, ih (a + 1)]
    · have h2 : ¬ d = mem a % 256 := fun e => h e.symm
      simp [memcmp_eq, mem_bytes, h, h2]

/-- The comparison `process_vid` makes for one pattern succeeds exactly when the
pattern and the `data_len` bytes at `vid_data` agree on the first
min(data_len, pattern length) bytes. -/
theorem vid_check_iff (mem : Nat → Nat) (vid_data data_len : Nat) (q : vid_pattern) :
    (vid_check mem vid_data data_len q).val = true
      ↔ q.data.take (min data_len q.data.length)
          = mem_bytes mem vid_data (min data_len q.data.length) := by
  have e : (if data_len < q.data.length then data_len else q.data.length)
      = min data_len q.data.length := by
    by_cases h : data_len < q.data.length
    · simp [h]; omega
    · simp [h]; omega
  unfold vid_check
  simp only []
  rw [e, memcmp_eq_val]
  have hl : (q.data.take (min data_len q.data.length)).length = min data_len q.data.length := by
    simp
  rw [hl]

/-- A pattern that is a prefix of the VID body passes the comparison. -/
theorem vid_check_of_initial (mem : Nat → Nat) (cp L : Nat) (q : vid_pattern) (h4 : 4 ≤ L)
    (hp : q.data <+: vid_body mem cp L) :
    (vid_check mem (cp + 4) L q).val = true := by
  rw [vid_check_iff]
  have hlen : q.data.length ≤ L - 4 := by
    have := hp.length_le
    rwa [vid_body, mem_bytes_length] at this
  have hmin : min L q.data.length = q.data.length := by omega
  rw [hmin, List.take_length]
  have ht := List.prefix_iff_eq_take.mp hp
  rw [vid_body, mem_bytes_take mem (L - 4) (cp + 4) q.data.length hlen] at ht
  exact ht

/-- A pattern that passes the comparison agrees with the VID body on the first
min(pattern length, body length) bytes. -/
theorem spec_match_of_vid_check (mem : Nat → Nat) (cp L : Nat) (q : vid_pattern)
    (hc : (vid_check mem (cp + 4) L q).val = true) :
    spec_match q (vid_body mem cp L) := by
  rw [vid_check_iff] at hc
  unfold spec_match
  rw [vid_body, mem_bytes_length]
  have hm : min q.data.length (L - 4) ≤ min L q.data.length := by omega
  have h1 := congrArg (List.take (min q.data.length (L - 4))) hc
  rw [List.take_take, mem_bytes_take mem _ _ _ hm, Nat.min_eq_left hm] at h1
  rw [h1, mem_bytes_take mem (L - 4) (cp + 4) _ (by omega)]

/-- An entry that fails the matching rule of the specification on the body, or
fails the comparison of the code, fails the comparison of the code. -/
theorem vid_check_fails (mem : Nat → Nat) (cp L : Nat) (q : vid_pattern)
    (h : ¬ spec_match q (vid_body mem cp L) ∨ (vid_check mem (cp + 4) L q).val = false) :
    ¬ (vid_check mem (cp + 4) L q).val = true := by
  intro hc
  rcases h with h | h
  · exact h (spec_match_of_vid_check mem cp L q hc)
  · rw [hc] at h
    exact Bool.noConfusion h

theorem vid_scan_cons (mem : Nat → Nat) (vid_data data_len : Nat) (msg : String)
    (q : vid_pattern) (rest : List vid_pattern) :
    (vid_scan mem vid_data data_len msg (q :: rest)).val
      = if (vid_check mem vid_data data_len q).val = true
        then msg ++ " (" ++ q.name ++ ")"
        else (vid_scan mem vid_data data_len msg rest).val := by
  simp only [vid_scan, Traced.val_bind]
  by_cases hc : (vid_check mem vid_data data_len q).val = true
  · rw [if_pos hc, if_pos hc]
    rfl
  · rw [if_neg hc, if_neg hc]

/-- The scan appends the name of the first entry that passes the comparison. -/
theorem vid_scan_first_hit (mem : Nat → Nat) (vid_data data_len : Nat) (msg : String)
    (pre : List vid_pattern) (p : vid_pattern) (post : List vid_pattern)
    (hpre : ∀ q ∈ pre, ¬ (vid_check mem vid_data data_len q).val = true)
    (hp : (vid_check mem vid_data data_len p).val = true) :
    (vid_scan mem vid_data data_len msg (pre ++ p :: post)).val
      = msg ++ " (" ++ p.name ++ ")" := by
  induction pre with
  | nil => rw [List.nil_append, vid_scan_cons, if_pos hp]
  | cons q qs ih =>
    rw [List.cons_append, vid_scan_cons, if_neg (hpre q (List.mem_cons_self _ _))]
    exact ih (fun r hr => hpre r (List.mem_cons_of_mem _ hr))

/-- The scan leaves the message alone when no entry passes the comparison. -/
theorem vid_scan_no_hit (mem : Nat → Nat) (vid_data data_len : Nat) (msg : String)
    (l : List vid_pattern)
    (hl : ∀ q ∈ l, ¬ (vid_check mem vid_data data_len q).val = true) :
    (vid_scan mem vid_data data_len msg l).val = msg := by
  induction l with
  | nil => rfl
  | cons q qs ih =>
    rw [vid_scan_cons, if_neg (hl q (List.mem_cons_self _ _))]
    exact ih (fun r hr => hl r (List.mem_cons_of_mem _ hr))

/-- The scan appends at most one name. -/
theorem vid_scan_one_name (mem : Nat → Nat) (vid_data data_len : Nat) (msg : String)
    (l : List vid_pattern) :
    (vid_scan mem vid_data data_len msg l).val = msg
      ∨ ∃ q ∈ l, (vid_scan mem vid_data data_len msg l).val = msg ++ " (" ++ q.name ++ ")" := by
  induction l with
  | nil => exact Or.inl rfl
  | cons q qs ih =>
    rw [vid_scan_cons]
    by_cases hc : (vid_check mem vid_data data_len q).val = true
    · rw [if_pos hc]
      exact Or.inr ⟨q, List.mem_cons_self _ _, rfl⟩
    · rw [if_neg hc]
      rcases ih with h | ⟨r, hr, h⟩
      · exact Or.inl h
      · exact Or.inr ⟨r, List.mem_cons_of_mem _ hr, h⟩

/-- For a well-sized payload `process_vid` is the scan over the declared length
`L` as `data_len`, started from the rendered message. -/
theorem process_vid_val (mem : Nat → Nat) (cp len : Nat) (vidlist : List vid_pattern)
    (h4 : 4 ≤ mem (cp + 2) % 256 * 256 + mem (cp + 3) % 256)
    (hlen : mem (cp + 2) % 256 * 256 + mem (cp + 3) % 256 ≤ len) :
    (process_vid mem cp len vidlist).val
      = (vid_scan mem (cp + 4) (mem (cp + 2) % 256 * 256 + mem (cp + 3) % 256)
          (vid_render mem cp len).val.2 vidlist).val := by
  have e3 : cp + 2 + 1 = cp + 3 := by omega
  have hd : (vid_render mem cp len).val.1 = mem (cp + 2) % 256 * 256 + mem (cp + 3) % 256 := by
    unfold vid_render
    by_cases hlt : mem (cp + 2) % 256 * 256 + mem (cp + 3) % 256 < len
    · simp [e3, hlt]
    · simp [e3, hlt]
      omega
  unfold process_vid
  simp only [sizeof_isakmp_vid]
  have h1 : ¬ len < 4 := by omega
  have h2 : ¬ mem (cp + 2) % 256 * 256 + mem (cp + 3) % 256 < 4 := by omega
  simp only [h1, if_false, Traced.val_bind, rd16_val, e3, h2, hd]

/-- C8: for a Vendor ID payload with declared length L, 4 ≤ L ≤ len, and body v:
a pattern that is a prefix of v, with no matching entry before it in the list, has
its name appended to the rendering as " (name)"; the result is the rendering alone
or the rendering with the name of one entry of the list; and it is the rendering
alone when no entry matches. An entry counts as not matching when it fails the
rule of the specification (agreement with v on the first min(pattern length, body
length) bytes) or fails the comparison made by the code. -/
theorem process_vid_first_match (mem : Nat → Nat) (cp len : Nat) (vidlist : List vid_pattern)
    (h4 : 4 ≤ mem (cp + 2) % 256 * 256 + mem (cp + 3) % 256)
    (hlen : mem (cp + 2) % 256 * 256 + mem (cp + 3) % 256 ≤ len) :
    (∀ pre p post, vidlist = pre ++ p :: post →
        p.data <+: vid_body mem cp (mem (cp + 2) % 256 * 256 + mem (cp + 3) % 256) →
        (∀ q ∈ pre,
          ¬ spec_match q (vid_body mem cp (mem (cp + 2) % 256 * 256 + mem (cp + 3) % 256))
          ∨ (vid_check mem (cp + 4) (mem (cp + 2) % 256 * 256 + mem (cp + 3) % 256) q).val
              = false) →
        (process_vid mem cp len vidlist).val
          = (vid_render mem cp len).val.2 ++ " (" ++ p.name ++ ")")
    ∧ ((process_vid mem cp len vidlist).val = (vid_render mem cp len).val.2
        ∨ ∃ q ∈ vidlist, (process_vid mem cp len vidlist).val
            = (vid_render mem cp len).val.2 ++ " (" ++ q.name ++ ")")
    ∧ ((∀ q ∈ vidlist,
          ¬ spec_match q (vid_body mem cp (mem (cp + 2) % 256 * 256 + mem (cp + 3) % 256))
          ∨ (vid_check mem (cp + 4) (mem (cp + 2) % 256 * 256 + mem (cp + 3) % 256) q).val
              = false) →
        (process_vid mem cp len vidlist).val = (vid_render mem cp len).val.2) := by
  rw [process_vid_val mem cp len vidlist h4 hlen]
  refine ⟨?_, vid_scan_one_name _ _ _ _ _, ?_⟩
  · intro pre p post hl hp hpre
    rw [hl]
    exact vid_scan_first_hit mem _ _ _ pre p post
      (fun q hq => vid_check_fails mem cp _ q (hpre q hq))
      (vid_check_of_initial mem cp _ p h4 hp)
  · intro hno
    exact vid_scan_no_hit mem _ _ _ vidlist
      (fun q hq => vid_check_fails mem cp _ q (hno q hq))

/-- C8, at a concrete payload: body 01 02, a non-matching entry, then the prefix
01 whose name is appended. -/
theorem process_vid_first_match_witness :
    (process_vid vid_example_mem 0 10
        [{ name := "other", data := [9] }, { name := "short", data := [1] },
         { name := "long", data := [1, 2] }]).val
      = "VID=010200000004 (short)" :=
  (process_vid_first_match vid_example_mem 0 10
      [{ name := "other", data := [9] }, { name := "short", data := [1] },
       { name := "long", data := [1, 2] }] (by decide) (by decide)).1
    [{ name := "other", data := [9] }] { name := "short", data := [1] }
    [{ name := "long", data := [1, 2] }] rfl (by decide) (by decide)

/-- C9 (amended): the scan is first-match. When several patterns are prefixes of
the VID body, the name appended is that of the one listed first, provided no entry
before it matches (each fails the rule of the specification or the comparison made
by the code), whatever the lengths of the patterns. -/
theorem process_vid_first_listed (mem : Nat → Nat) (cp len : Nat)
    (pre : List vid_pattern) (p : vid_pattern) (mid : List vid_pattern) (p2 : vid_pattern)
    (post : List vid_pattern)
    (h4 : 4 ≤ mem (cp + 2) % 256 * 256 + mem (cp + 3) % 256)
    (hlen : mem (cp + 2) % 256 * 256 + mem (cp + 3) % 256 ≤ len)
    (hp : p.data <+: vid_body mem cp (mem (cp + 2) % 256 * 256 + mem (cp + 3) % 256))
    (_hp2 : p2.data <+: vid_body mem cp (mem (cp + 2) % 256 * 256 + mem (cp + 3) % 256))
    (hpre : ∀ q ∈ pre,
      ¬ spec_match q (vid_body mem cp (mem (cp + 2) % 256 * 256 + mem (cp + 3) % 256))
      ∨ (vid_check mem (cp + 4) (mem (cp + 2) % 256 * 256 + mem (cp + 3) % 256) q).val
          = false) :
    (process_vid mem cp len (pre ++ p :: (mid ++ p2 :: post))).val
      = (vid_render mem cp len).val.2 ++ " (" ++ p.name ++ ")" := by
  rw [process_vid_val mem cp len _ h4 hlen]
  exact vid_scan_first_hit mem _ _ _ pre p (mid ++ p2 :: post)
    (fun q hq => vid_check_fails mem cp _ q (hpre q hq))
    (vid_check_of_initial mem cp _ p h4 hp)

/-- C9 (amended), at a concrete payload: body 01 02, the prefix 01 listed before the
longer prefix 01 02. -/
theorem process_vid_first_listed_witness :
    (process_vid vid_example_mem 0 10
        [{ name := "short", data := [1] }, { name := "long", data := [1, 2] }]).val
      = "VID=010200000004 (short)" :=
  process_vid_first_listed vid_example_mem 0 10 [] { name := "short", data := [1] } []
    { name := "long", data := [1, 2] } [] (by decide) (by decide) (by decide) (by decide)
    (by decide)

/-- C9 as stated fails: with body 01 02 and the patterns 01 ("short") and 01 02
("long"), both prefixes of the body, the name appended is "short", not that of the
longest prefix. -/
theorem process_vid_not_longest :
    ([1] <+: vid_body vid_example_mem 0 6) ∧ ([1, 2] <+: vid_body vid_example_mem 0 6)
    ∧ (process_vid vid_example_mem 0 10
        [{ name := "short", data := [1] }, { name := "long", data := [1, 2] }]).val
        = (vid_render vid_example_mem 0 10).val.2 ++ " (short)"
    ∧ (process_vid vid_example_mem 0 10
        [{ name := "short", data := [1] }, { name := "long", data := [1, 2] }]).val
        ≠ (vid_render vid_example_mem 0 10).val.2 ++ " (long)" := by
  decide

/-- C4: with 6 bytes remaining and a declared length of 6, process_vid reads the
addresses 6 to 9, which lie past the remaining slice. -/
theorem process_vid_reads_past_len :
    (process_vid (mem_of [0, 0, 0, 6, 171, 205]) 0 6 []).reads
      = [2, 3, 2, 3, 4, 5, 6, 7, 8, 9] := by
  decide

/-- C7: for a payload with declared length 6 and body ab cd, followed by another
payload, process_vid renders twelve hex digits, the body and the four bytes after
it, where the body alone renders as four. -/
theorem process_vid_renders_past_body :
    (process_vid (mem_of [13, 0, 0, 6, 171, 205, 0, 0, 0, 4]) 0 10 []).val = "VID=abcd00000004"
    ∧ "VID=" ++ hex_of (vid_body (mem_of [13, 0, 0, 6, 171, 205, 0, 0, 0, 4]) 0 6) = "VID=abcd" := by
  decide

/-! ### process_notify -/

/-- C5: with 12 bytes remaining, notify type 9101 and a declared length of 13,
process_notify reads address 12, which lies past the remaining slice. -/
theorem process_notify_reads_past_len :
    (process_notify (mem_of [0, 0, 0, 13, 0, 0, 0, 1, 1, 0, 35, 141]) 0 12).reads
      = [2, 3, 10, 11, 2, 3, 12] := by
  decide

/-! ### process_isakmp_hdr -/

theorem process_isakmp_hdr_val (mem : Nat → Nat) (cp len : Nat) :
    (process_isakmp_hdr mem cp len).val
      = if len < 28
            ∨ mem (cp + 24) % 256 * 16777216 + mem (cp + 25) % 256 * 65536
                + mem (cp + 26) % 256 * 256 + mem (cp + 27) % 256 < 28
            ∨ mem (cp + 16) % 256 = 0
        then { ret := none, len := 0, next := 0, type := 0 }
        else { ret := some (cp + 28), len := len - 28, next := (mem (cp + 16) % 256 : Nat),
               type := (mem (cp + 18) % 256 : Nat) } := by
  unfold process_isakmp_hdr
  simp only [sizeof_isakmp_hdr, ISAKMP_NEXT_NONE, ISAKMP_XCHG_NONE]
  have e1 : cp + 24 + 1 = cp + 25 := by omega
  have e2 : cp + 24 + 2 = cp + 26 := by omega
  have e3 : cp + 24 + 3 = cp + 27 := by omega
  by_cases h1 : len < 28
  · simp [h1]
  · by_cases h2 : mem (cp + 24) % 256 * 16777216 + mem (cp + 25) % 256 * 65536
        + mem (cp + 26) % 256 * 256 + mem (cp + 27) % 256 < 28
    · simp [h1, h2, e1, e2, e3]
    · by_cases h3 : mem (cp + 16) % 256 = 0
      · simp [h1, h2, h3, e1, e2, e3]
      · simp [h1, h2, h3, e1, e2, e3]

/-- C14: process_isakmp_hdr fails (NULL, remaining 0, next NONE, exchange type NONE)
exactly when len is below 28, or the big-endian total-length field is below 28, or
the next-payload byte is 0; otherwise it returns the cursor advanced by 28, the
remaining length reduced by 28, the byte at offset 16 as next and the byte at
offset 18 as exchange type. -/
theorem process_isakmp_hdr_spec (mem : Nat → Nat) (cp len : Nat) :
    ((process_isakmp_hdr mem cp len).val = { ret := none, len := 0, next := 0, type := 0 }
      ↔ (len < 28
          ∨ mem (cp + 24) % 256 * 16777216 + mem (cp + 25) % 256 * 65536
              + mem (cp + 26) % 256 * 256 + mem (cp + 27) % 256 < 28
          ∨ mem (cp + 16) % 256 = 0))
    ∧ (¬ (len < 28
          ∨ mem (cp + 24) % 256 * 16777216 + mem (cp + 25) % 256 * 65536
              + mem (cp + 26) % 256 * 256 + mem (cp + 27) % 256 < 28
          ∨ mem (cp + 16) % 256 = 0)
        → (process_isakmp_hdr mem cp len).val
            = { ret := some (cp + 28), len := len - 28, next := (mem (cp + 16) % 256 : Nat),
                type := (mem (cp + 18) % 256 : Nat) }) := by
  rw [process_isakmp_hdr_val]
  constructor
  · constructor
    · intro h
      by_contra hc
      rw [if_neg hc] at h
      exact absurd (congrArg hdr_result.ret h) (by simp)
    · intro h
      rw [if_pos h]
  · intro h
    rw [if_neg h]

/-- C14, at a concrete header: main mode, next payload SA, total length 72. -/
theorem process_isakmp_hdr_spec_witness :
    (process_isakmp_hdr (mem_of (make_isakmp_hdr false 2 1 72)) 0 72).val
      = { ret := some 28, len := 44, next := 1, type := 2 } :=
  (process_isakmp_hdr_spec (mem_of (make_isakmp_hdr false 2 1 72)) 0 72).2 (by decide)

/-! ### process_notify, continued -/

theorem notification_msg_eq : notification_msg = rfc2408_notify_names := rfl

theorem process_notify_val (mem : Nat → Nat) (cp len : Nat) (h1 : 12 ≤ len)
    (h2 : 12 ≤ mem (cp + 2) % 256 * 256 + mem (cp + 3) % 256) :
    (process_notify mem cp len).val
      = if mem (cp + 10) % 256 * 256 + mem (cp + 11) % 256 < 31 then
          "Notify message " ++ toString (mem (cp + 10) % 256 * 256 + mem (cp + 11) % 256) ++ " ("
            ++ notification_msg.getD (mem (cp + 10) % 256 * 256 + mem (cp + 11) % 256) "" ++ ")"
        else if mem (cp + 10) % 256 * 256 + mem (cp + 11) % 256 = 9101 then
          "Notify message " ++ toString (mem (cp + 10) % 256 * 256 + mem (cp + 11) % 256)
            ++ " [Checkpoint Firewall-1 4.x or NG Base] ("
            ++ printable_string (memcpy_read mem (cp + 12)
                (mem (cp + 2) % 256 * 256 + mem (cp + 3) % 256 - 12)).val ++ ")"
        else
          "Notify message " ++ toString (mem (cp + 10) % 256 * 256 + mem (cp + 11) % 256)
            ++ " (UNKNOWN MESSAGE TYPE)" := by
  unfold process_notify
  simp only [sizeof_isakmp_notification, fmt_d]
  have e3 : cp + 2 + 1 = cp + 3 := by omega
  have e11 : cp + 10 + 1 = cp + 11 := by omega
  have hl : ¬ len < 12 := by omega
  have hL : ¬ mem (cp + 2) % 256 * 256 + mem (cp + 3) % 256 < 12 := by omega
  simp only [hl, if_false, Traced.val_bind, rd16_val, e3, e11, hL]
  by_cases ht : mem (cp + 10) % 256 * 256 + mem (cp + 11) % 256 < 31
  · simp [ht]
  · by_cases h9 : mem (cp + 10) % 256 * 256 + mem (cp + 11) % 256 = 9101
    · simp [h9]
    · simp [ht, h9]

/-- C12: with at least 12 bytes remaining and a declared length of at least 12,
process_notify returns "Notify message t (NAME)" for a notify type t from 0 to 30,
NAME being the t-th name of the specification's list, and "Notify message t
(UNKNOWN MESSAGE TYPE)" for every t above 30 other than 9101. -/
theorem process_notify_names (mem : Nat → Nat) (cp len : Nat) (h1 : 12 ≤ len)
    (h2 : 12 ≤ mem (cp + 2) % 256 * 256 + mem (cp + 3) % 256) :
    (mem (cp + 10) % 256 * 256 + mem (cp + 11) % 256 ≤ 30 →
        (process_notify mem cp len).val
          = "Notify message " ++ toString (mem (cp + 10) % 256 * 256 + mem (cp + 11) % 256)
            ++ " (" ++ rfc2408_notify_names.getD
                (mem (cp + 10) % 256 * 256 + mem (cp + 11) % 256) "" ++ ")")
    ∧ (30 < mem (cp + 10) % 256 * 256 + mem (cp + 11) % 256 →
        mem (cp + 10) % 256 * 256 + mem (cp + 11) % 256 ≠ 9101 →
        (process_notify mem cp len).val
          = "Notify message " ++ toString (mem (cp + 10) % 256 * 256 + mem (cp + 11) % 256)
            ++ " (UNKNOWN MESSAGE TYPE)") := by
  rw [process_notify_val mem cp len h1 h2, notification_msg_eq]
  constructor
  · intro ht
    rw [if_pos (by omega)]
  · intro ht h9
    rw [if_neg (by omega), if_neg h9]

/-- C12, at scenario S3: a Notification payload with notify type 14. -/
theorem process_notify_names_witness :
    (process_notify (mem_of [0, 0, 0, 12, 0, 0, 0, 1, 1, 0, 0, 14]) 0 12).val
      = "Notify message 14 (NO-PROPOSAL-CHOSEN)" :=
  (process_notify_names (mem_of [0, 0, 0, 12, 0, 0, 0, 1, 1, 0, 0, 14]) 0 12 (by decide)
    (by decide)).1 (by decide)

/-- C13: for notify type 9101 with declared length 15 and the three data bytes
41 00 42, process_notify returns the string up to the zero byte, "A", where the
three-character string "A.B" is specified. -/
theorem process_notify_stops_at_nul :
    (process_notify (mem_of [0, 0, 0, 15, 0, 0, 0, 1, 1, 0, 35, 141, 65, 0, 66]) 0 15).val
      = "Notify message 9101 [Checkpoint Firewall-1 4.x or NG Base] (A)" := by
  decide

/-! ### process_sa, continued -/

theorem process_sa_val (mem : Nat → Nat) (cp len : Nat) (t : Int)
    (h0 : 0 ≤ t) (h1 : t < 2147483648) :
    (process_sa mem cp len t).val
      = if len < 20 ∨ mem (cp + 2) % 256 * 256 + mem (cp + 3) % 256 < 20 then sa_too_short
        else sa_summary t (mem (cp + 19) % 256) := by
  have hb := sa_msg_eq_sa_base t h0 (by omega)
  unfold process_sa sa_too_short sa_summary
  simp only [sizeof_isakmp_sa, sizeof_isakmp_proposal, hb]
  have e19 : cp + 12 + 7 = cp + 19 := by omega
  have e3 : cp + 2 + 1 = cp + 3 := by omega
  by_cases hl : len < 12 + 8
  · have hl2 : len < 20 := hl
    simp [hl2]
  · have hl2 : ¬ len < 20 := hl
    by_cases h2 : mem (cp + 2) % 256 * 256 + mem (cp + 3) % 256 < 12 + 8
    · have h22 : mem (cp + 2) % 256 * 256 + mem (cp + 3) % 256 < 20 := h2
      simp [hl2, e3, h22]
    · have h22 : ¬ mem (cp + 2) % 256 * 256 + mem (cp + 3) % 256 < 20 := h2
      by_cases hk : mem (cp + 19) % 256 = 1
      · simp [hl2, e3, e19, h22, hk]
      · simp [hl2, e3, e19, h22, hk, fmt_d]

theorem string_ne_of_head (a b : String) (h : a.data.head? ≠ b.data.head?) : a ≠ b := by
  intro e
  exact h (by rw [e])

theorem sa_summary_ne_too_short (t : Int) (k : Nat) : sa_summary t k ≠ sa_too_short := by
  apply string_ne_of_head
  unfold sa_summary sa_base sa_too_short
  split_ifs <;> simp [String.data_append]

/-- C11 (amended): for an SA payload whose declared length is greater than the
remaining length, process_sa returns the too-short message when fewer than 20 bytes
remain; when 20 or more remain it returns the mode summary, which is a different
string. -/
theorem process_sa_declared_past_len (mem : Nat → Nat) (cp len : Nat) (t : Int)
    (h0 : 0 ≤ t) (h1 : t < 2147483648)
    (hpast : len < mem (cp + 2) % 256 * 256 + mem (cp + 3) % 256) :
    (len < 20 → (process_sa mem cp len t).val = sa_too_short)
    ∧ (20 ≤ len → (process_sa mem cp len t).val = sa_summary t (mem (cp + 19) % 256)
        ∧ (process_sa mem cp len t).val ≠ sa_too_short) := by
  rw [process_sa_val mem cp len t h0 h1]
  constructor
  · intro h
    rw [if_pos (Or.inl h)]
  · intro h
    rw [if_neg (by omega)]
    exact ⟨rfl, sa_summary_ne_too_short t _⟩

/-- C11 (amended), at a payload that declares 44 bytes with 10 remaining. -/
theorem process_sa_declared_past_len_witness :
    (process_sa sa_example_mem 0 10 2).val
      = "IKE Handshake returned (packet too short to decode)" :=
  (process_sa_declared_past_len sa_example_mem 0 10 2 (by decide) (by decide) (by decide)).1
    (by decide)

/-- C11 as stated fails: an SA payload that declares 44 bytes with only 20
remaining is summarised as a main mode handshake, not as too short. -/
theorem process_sa_past_len_not_too_short :
    (20 : Nat) < sa_example_mem 2 % 256 * 256 + sa_example_mem 3 % 256
    ∧ (process_sa sa_example_mem 0 20 2).val = "Main Mode Handshake returned (3 transforms)"
    ∧ (process_sa sa_example_mem 0 20 2).val
        ≠ "IKE Handshake returned (packet too short to decode)" := by
  decide

/-! ### make_sa_hdr, make_prop -/

/-- C20: for sa_len and prop_len below 65536 and next, notrans below 256,
make_sa_hdr is the 12 bytes next, 0, sa_len in two big-endian bytes, 0 0 0 1,
0 0 0 1, and make_prop is the 8 bytes 0, 0, prop_len in two big-endian bytes, 1, 1,
0, notrans. -/
theorem make_sa_hdr_make_prop_wire (next sa_len prop_len notrans : Nat)
    (hnext : next < 256) (hsa : sa_len < 65536) (hprop : prop_len < 65536)
    (hnotrans : notrans < 256) :
    make_sa_hdr next sa_len
        = [next, 0, sa_len / 256, sa_len % 256, 0, 0, 0, 1, 0, 0, 0, 1]
    ∧ make_prop prop_len notrans
        = [0, 0, prop_len / 256, prop_len % 256, 1, 1, 0, notrans] := by
  have e1 : sa_len / 256 % 256 = sa_len / 256 := Nat.mod_eq_of_lt (by omega)
  have e2 : prop_len / 256 % 256 = prop_len / 256 := Nat.mod_eq_of_lt (by omega)
  constructor
  · simp [make_sa_hdr, htons, htonl, ISAKMP_DOI_IPSEC, SIT_IDENTITY_ONLY, e1,
      Nat.mod_eq_of_lt hnext]
  · simp [make_prop, htons, PROTO_ISAKMP, e2, Nat.mod_eq_of_lt hnotrans]

/-- C20, at the SA prefix of a proposal with three 24-byte transforms. -/
theorem make_sa_hdr_make_prop_wire_witness :
    make_sa_hdr 0 92 = [0, 0, 0, 92, 0, 0, 0, 1, 0, 0, 0, 1]
    ∧ make_prop 80 3 = [0, 0, 0, 80, 1, 1, 0, 3] :=
  make_sa_hdr_make_prop_wire 0 92 80 3 (by decide) (by decide) (by decide) (by decide)

/-! ### make_vid, add_vid -/

/-- Writing a header and then a body into a fresh buffer of their joint size gives
the header followed by the body. -/
theorem memcpy_header_body (hdr body : List Nat) :
    memcpy_at (memcpy_at (Realloc [] (hdr.length + body.length)) 0 hdr) hdr.length body
      = hdr ++ body := by
  unfold memcpy_at Realloc
  simp

/-- Writing a body and then a header into a fresh buffer of their joint size gives
the header followed by the body. -/
theorem memcpy_body_header (hdr body : List Nat) :
    memcpy_at (memcpy_at (Realloc [] (hdr.length + body.length)) hdr.length body) 0 hdr
      = hdr ++ body := by
  unfold memcpy_at Realloc
  simp

theorem make_vid_eq (next : Nat) (body : List Nat) :
    make_vid next body
      = ([next % 256, 0, (4 + body.length) / 256 % 256, (4 + body.length) % 256] ++ body,
         4 + body.length) := by
  have h := memcpy_header_body (isakmp_generic_image next (4 + body.length)) body
  unfold make_vid
  simp only [sizeof_isakmp_vid]
  have hl : (isakmp_generic_image next (4 + body.length)).length = 4 := rfl
  rw [hl] at h
  rw [h]
  rfl

theorem make_vid_wire (next : Nat) (body : List Nat) (hnext : next < 256)
    (hfit : 4 + body.length < 65536) :
    (make_vid next body).1 = vid_wire next body := by
  rw [make_vid_eq]
  unfold vid_wire
  have e1 : (4 + body.length) / 256 % 256 = (4 + body.length) / 256 :=
    Nat.mod_eq_of_lt (by omega)
  simp [e1, Nat.mod_eq_of_lt hnext]

/-- One appending call on a state whose buffer has `end_offset` bytes (none before
the first Vendor ID). -/
theorem add_vid_append_step (b : List Nat) (s : vid_state)
    (hlen : s.vid_start.length = s.end_offset)
    (hfirst : s.first_vid ≠ 0 → s.end_offset = 0) :
    (add_vid 0 b s).1
      = { first_vid := 0,
          vid_start := s.vid_start ++ (make_vid ISAKMP_NEXT_VID b).1,
          cur_offset := s.end_offset,
          end_offset := s.end_offset + (make_vid ISAKMP_NEXT_VID b).1.length } := by
  have hl : (make_vid ISAKMP_NEXT_VID b).1.length = (make_vid ISAKMP_NEXT_VID b).2 := by
    rw [make_vid_eq]
    simp
    omega
  have hm := memcpy_at_Realloc s.vid_start (make_vid ISAKMP_NEXT_VID b).1
  rw [hlen, hl] at hm
  unfold add_vid
  by_cases hf : s.first_vid = 0
  · simp only [if_true, hf, ne_eq, not_true_eq_false, if_false, hm, hl]
  · have he := hfirst hf
    have hnil : s.vid_start = [] := List.length_eq_zero.mp (by omega)
    rw [hnil, he] at hm
    simp only [Nat.zero_add, List.nil_append] at hm
    simp only [if_true, hf, ne_eq, not_false_eq_true, hm, hl, hnil, he, Nat.zero_add,
      List.nil_append]

/-- The static state after a non-empty run of appending calls. -/
theorem add_vid_appends_state (bs : List (List Nat)) :
    ∀ (b : List Nat) (s : vid_state), s.vid_start.length = s.end_offset →
      (s.first_vid ≠ 0 → s.end_offset = 0) →
      (add_vid_appends (b :: bs) s).vid_start
          = s.vid_start ++ ((b :: bs).map (fun x => (make_vid ISAKMP_NEXT_VID x).1)).flatten
      ∧ (add_vid_appends (b :: bs) s).end_offset
          = (add_vid_appends (b :: bs) s).vid_start.length
      ∧ (add_vid_appends (b :: bs) s).cur_offset
          = s.end_offset
            + (((b :: bs).map (fun x => (make_vid ISAKMP_NEXT_VID x).1)).dropLast).flatten.length := by
  induction bs with
  | nil =>
    intro b s h1 h2
    have hstep := add_vid_append_step b s h1 h2
    have e : add_vid_appends [b] s = (add_vid 0 b s).1 := rfl
    rw [e, hstep]
    simp [h1]
  | cons c cs ih =>
    intro b s h1 h2
    have hstep := add_vid_append_step b s h1 h2
    have e : add_vid_appends (b :: c :: cs) s = add_vid_appends (c :: cs) (add_vid 0 b s).1 := rfl
    rw [e]
    obtain ⟨x, y, z⟩ := ih c (add_vid 0 b s).1 (by rw [hstep]; simp [h1]) (by rw [hstep]; simp)
    refine ⟨?_, y, ?_⟩
    · rw [x, hstep]
      simp
    · rw [z, hstep]
      simp
      omega

theorem vid_wire_length (next : Nat) (body : List Nat) :
    (vid_wire next body).length = 4 + body.length := by
  simp [vid_wire]
  omega

theorem vid_wire_set_next (body : List Nat) : (vid_wire 13 body).set 0 0 = vid_wire 0 body := by
  simp [vid_wire]

theorem appended_vids_eq (bs : List (List Nat)) (hfit : ∀ b ∈ bs, 4 + b.length < 65536) :
    bs.map (fun x => (make_vid ISAKMP_NEXT_VID x).1) = bs.map (vid_wire 13) := by
  apply List.map_congr_left
  intro b hb
  exact make_vid_wire 13 b (by decide) (hfit b hb)

theorem expected_vids_flatten (bs : List (List Nat)) :
    ∀ (b : List Nat),
      ((b :: bs).map (vid_wire 13)).flatten.set
          (((b :: bs).map (vid_wire 13)).dropLast).flatten.length 0
        = (expected_vids (b :: bs)).flatten := by
  induction bs with
  | nil =>
    intro b
    simp only [List.map_cons, List.map_nil, expected_vids, List.dropLast_single,
      List.flatten_nil, List.length_nil, List.flatten_cons, List.append_nil]
    exact vid_wire_set_next b
  | cons c cs ih =>
    intro b
    have h := ih c
    simp only [List.map_cons, expected_vids, List.flatten_cons, List.dropLast_cons₂,
      List.length_append] at h ⊢
    rw [List.set_append_right _ _ (by omega)]
    simp only [Nat.add_sub_cancel_left]
    rw [h]

theorem expected_vids_length (bs : List (List Nat)) :
    ((expected_vids bs).map List.length).sum = vid_offset bs := by
  induction bs with
  | nil => rfl
  | cons b bs ih =>
    cases bs with
    | nil => simp [expected_vids, vid_offset, vid_wire_length]
    | cons c cs =>
      simp only [expected_vids, List.map_cons, List.sum_cons, vid_wire_length] at ih ⊢
      rw [ih]
      simp [vid_offset]

/-- The finalised buffer and length for a non-empty list of bodies that fit the
length field. -/
theorem add_vid_build_eq (bodies : List (List Nat)) (hne : bodies ≠ [])
    (hfit : ∀ b ∈ bodies, 4 + b.length < 65536) :
    add_vid_build bodies = some ((expected_vids bodies).flatten, vid_offset bodies) := by
  obtain ⟨b, bs, rfl⟩ := List.exists_cons_of_ne_nil hne
  obtain ⟨x, y, z⟩ := add_vid_appends_state bs b vid_state_init rfl (fun _ => rfl)
  rw [appended_vids_eq (b :: bs) hfit] at x z
  have hflat := expected_vids_flatten bs b
  unfold add_vid_build add_vid
  simp only [one_ne_zero, if_false, ISAKMP_NEXT_NONE]
  rw [y, x, z]
  simp only [vid_state_init, List.nil_append, Nat.zero_add, List.length_set]
  rw [hflat]
  have hl : ((b :: bs).map (vid_wire 13)).flatten.length
      = (expected_vids (b :: bs)).flatten.length := by
    rw [← hflat, List.length_set]
  rw [hl, List.length_flatten, expected_vids_length]

/-- C19: from a fresh accumulator, for a non-empty list of Vendor ID bodies that
each fit the length field, the appends followed by the finalising call return the
concatenation in append order of the payloads next, 0, 4 + body length in two
big-endian bytes, body, with next 13 on all payloads but the last and 0 on the
last; the returned length is the sum of the payload lengths. -/
theorem add_vid_chain (bodies : List (List Nat)) (hne : bodies ≠ [])
    (hfit : ∀ b ∈ bodies, 4 + b.length < 65536) :
    add_vid_build bodies
      = some ((expected_vids bodies).flatten, ((expected_vids bodies).map List.length).sum)
    ∧ ((expected_vids bodies).map List.length).sum
        = (bodies.map (fun b => 4 + b.length)).sum := by
  rw [add_vid_build_eq bodies hne hfit, expected_vids_length]
  exact ⟨rfl, rfl⟩

/-- C19, at three bodies, the last one empty. -/
theorem add_vid_chain_witness :
    add_vid_build [[1, 2], [3], []]
      = some ([13, 0, 0, 6, 1, 2, 13, 0, 0, 5, 3, 0, 0, 0, 4], 15) :=
  (add_vid_chain [[1, 2], [3], []] (by simp) (by decide)).1

/-! ### Walking a Vendor ID chain -/

theorem skip_payload_val (mem : Nat → Nat) (cp len : Nat) :
    (skip_payload mem cp len).val
      = if len < 4 ∨ mem (cp + 2) % 256 * 256 + mem (cp + 3) % 256 ≥ len
            ∨ mem (cp + 2) % 256 * 256 + mem (cp + 3) % 256 < 4 ∨ mem cp % 256 = 0
        then { ret := none, len := 0, next := 0 }
        else { ret := some (cp + (mem (cp + 2) % 256 * 256 + mem (cp + 3) % 256)),
               len := len - (mem (cp + 2) % 256 * 256 + mem (cp + 3) % 256),
               next := (mem cp % 256 : Nat) } := by
  unfold skip_payload
  simp only [sizeof_isakmp_generic, ISAKMP_NEXT_NONE]
  have e3 : cp + 2 + 1 = cp + 3 := by omega
  by_cases h1 : len < 4
  · simp [h1]
  · by_cases h2 : mem (cp + 2) % 256 * 256 + mem (cp + 3) % 256 ≥ len
    · simp [h1, h2, e3]
    · by_cases h3 : mem (cp + 2) % 256 * 256 + mem (cp + 3) % 256 < 4
      · simp [h1, h2, h3, e3]
      · by_cases h4 : mem cp % 256 = 0
        · simp [h1, h2, h3, h4, e3]
        · simp [h1, h2, h3, h4, e3]

theorem mem_of_append_right (a b : List Nat) (i : Nat) :
    mem_of (a ++ b) (a.length + i) = mem_of b i := by
  unfold mem_of
  rw [List.getD_append_right _ _ _ _ (by omega)]
  simp

theorem expected_vids_split (pre : List (List Nat)) (b : List Nat) (post : List (List Nat)) :
    (expected_vids (pre ++ b :: post)).flatten
      = (pre.map (vid_wire 13)).flatten
        ++ (vid_wire (if post = [] then 0 else 13) b ++ (expected_vids post).flatten) := by
  induction pre with
  | nil =>
    cases post with
    | nil => simp [expected_vids]
    | cons c cs => simp [expected_vids]
  | cons a as ih =>
    obtain ⟨c, cs, hc⟩ := List.exists_cons_of_ne_nil
      (show as ++ b :: post ≠ [] by simp)
    rw [List.cons_append, hc, expected_vids, List.flatten_cons, ← hc, ih, List.map_cons,
      List.flatten_cons, List.append_assoc]

theorem vid_prefix_length (pre : List (List Nat)) :
    (pre.map (vid_wire 13)).flatten.length = vid_offset pre := by
  induction pre with
  | nil => rfl
  | cons a as ih =>
    simp only [List.map_cons, List.flatten_cons, List.length_append, ih, vid_wire_length]
    simp [vid_offset]

theorem vid_offset_append (pre : List (List Nat)) (b : List Nat) (post : List (List Nat)) :
    vid_offset (pre ++ b :: post) = vid_offset pre + (4 + b.length) + vid_offset post := by
  simp [vid_offset]
  omega

theorem vid_offset_pos (c : List Nat) (cs : List (List Nat)) : 4 ≤ vid_offset (c :: cs) := by
  simp [vid_offset]
  omega

/-- The three header bytes `skip_payload` reads at the start of a payload inside
the finalised chain. -/
theorem vid_chain_header (pre : List (List Nat)) (b : List Nat) (post : List (List Nat))
    (hfit : 4 + b.length < 65536) :
    mem_of (expected_vids (pre ++ b :: post)).flatten (vid_offset pre) % 256
        = (if post = [] then 0 else 13)
    ∧ mem_of (expected_vids (pre ++ b :: post)).flatten (vid_offset pre + 2) % 256 * 256
        + mem_of (expected_vids (pre ++ b :: post)).flatten (vid_offset pre + 3) % 256
        = 4 + b.length := by
  rw [expected_vids_split, ← vid_prefix_length pre]
  have h0 := mem_of_append_right (pre.map (vid_wire 13)).flatten
    (vid_wire (if post = [] then 0 else 13) b ++ (expected_vids post).flatten) 0
  rw [Nat.add_zero] at h0
  rw [h0, mem_of_append_right, mem_of_append_right]
  have e1 : (4 + b.length) / 256 % 256 = (4 + b.length) / 256 := Nat.mod_eq_of_lt (by omega)
  constructor
  · by_cases hp : post = []
    · simp [hp, mem_of, vid_wire]
    · simp [hp, mem_of, vid_wire]
  · simp only [mem_of, vid_wire, List.cons_append, List.getD_cons_succ, List.getD_cons_zero,
      e1, Nat.mod_mod]
    omega

/-- C15: in the buffer returned for a non-empty list of Vendor ID bodies that fit
the length field, skip_payload started at the payload that follows the payloads of
`pre`, with the rest of the returned length remaining, advances by 4 + body length
and yields next 13 when a payload follows, and reports end-of-chain at the last
payload. The walk starts with `pre` empty, at offset 0 with the whole length. -/
theorem vid_chain_walk (bodies : List (List Nat)) (buf : List Nat) (total : Nat)
    (hfit : ∀ b ∈ bodies, 4 + b.length < 65536)
    (hbuild : add_vid_build bodies = some (buf, total)) :
    vid_offset [] = 0
    ∧ ∀ pre b post, bodies = pre ++ b :: post →
      vid_offset (pre ++ [b]) = vid_offset pre + (4 + b.length)
      ∧ (post ≠ [] →
          (skip_payload (mem_of buf) (vid_offset pre) (total - vid_offset pre)).val
            = { ret := some (vid_offset (pre ++ [b])), len := total - vid_offset (pre ++ [b]),
                next := 13 })
      ∧ (post = [] →
          (skip_payload (mem_of buf) (vid_offset pre) (total - vid_offset pre)).val
            = { ret := none, len := 0, next := 0 }) := by
  refine ⟨rfl, ?_⟩
  intro pre b post hsplit
  have hne : bodies ≠ [] := by rw [hsplit]; simp
  have hb := add_vid_build_eq bodies hne hfit
  rw [hb] at hbuild
  have hbuf : buf = (expected_vids bodies).flatten := by
    have := congrArg (fun o => (o.getD ([], 0)).1) hbuild
    simpa using this.symm
  have htot : total = vid_offset bodies := by
    have := congrArg (fun o => (o.getD ([], 0)).2) hbuild
    simp at this
    exact this.symm
  have hfb : 4 + b.length < 65536 := hfit b (by rw [hsplit]; simp)
  have hoff : vid_offset (pre ++ [b]) = vid_offset pre + (4 + b.length) := by
    have := vid_offset_append pre b []
    simp [vid_offset] at this ⊢
  obtain ⟨hnp, hlen⟩ := vid_chain_header pre b post hfb
  rw [hbuf, htot, hsplit, skip_payload_val, hlen, hnp, hoff, vid_offset_append]
  refine ⟨rfl, ?_, ?_⟩
  · intro hp
    obtain ⟨c, cs, rfl⟩ := List.exists_cons_of_ne_nil hp
    have h4 := vid_offset_pos c cs
    rw [if_neg (by simp; omega)]
    simp
    omega
  · intro hp
    subst hp
    rw [if_pos (by right; left; simp [vid_offset])]

/-- C15, at three bodies: the step at the first payload advances by 6 bytes. -/
theorem vid_chain_walk_witness :
    (skip_payload (mem_of [13, 0, 0, 6, 1, 2, 13, 0, 0, 5, 3, 0, 0, 0, 4]) 0 15).val
      = { ret := some 6, len := 9, next := 13 } :=
  ((vid_chain_walk [[1, 2], [3], []] [13, 0, 0, 6, 1, 2, 13, 0, 0, 5, 3, 0, 0, 0, 4] 15
      (by decide) (by decide)).2 [] [1, 2] [[3], []] rfl).2.1 (by simp)

/-! ### make_ke, make_nonce, make_id and the length field -/

theorem rand_bytes_length (rnd : Nat → Nat) (n : Nat) : (rand_bytes rnd n).length = n := by
  simp [rand_bytes]

theorem make_ke_eq (rnd : Nat → Nat) (next n : Nat) (h4 : n % 4 = 0) :
    make_ke rnd next n
      = some ([next % 256, 0, (4 + n) / 256 % 256, (4 + n) % 256] ++ rand_bytes rnd n, 4 + n) := by
  have h := memcpy_body_header (isakmp_generic_image next (4 + n)) (rand_bytes rnd n)
  have hl : (isakmp_generic_image next (4 + n)).length = 4 := rfl
  rw [hl, rand_bytes_length] at h
  unfold make_ke
  simp only [sizeof_isakmp_kx, h4, ne_eq, not_true_eq_false, if_false]
  rw [h]
  rfl

theorem make_nonce_eq (rnd : Nat → Nat) (next n : Nat) :
    make_nonce rnd next n
      = ([next % 256, 0, (4 + n) / 256 % 256, (4 + n) % 256] ++ rand_bytes rnd n, 4 + n) := by
  have h := memcpy_header_body (isakmp_generic_image next (4 + n)) (rand_bytes rnd n)
  have hl : (isakmp_generic_image next (4 + n)).length = 4 := rfl
  rw [hl, rand_bytes_length] at h
  unfold make_nonce
  simp only [sizeof_isakmp_nonce, sizeof_isakmp_vid]
  rw [h]
  rfl

theorem make_id_eq (next idtype : Nat) (id_data : List Nat) :
    make_id next idtype id_data
      = ([next % 256, 0, (8 + id_data.length) / 256 % 256, (8 + id_data.length) % 256,
          idtype % 256, 17, 1, 244] ++ id_data, 8 + id_data.length) := by
  have h := memcpy_header_body (isakmp_id_image next (8 + id_data.length) idtype 17 500) id_data
  have hl : (isakmp_id_image next (8 + id_data.length) idtype 17 500).length = 8 := rfl
  rw [hl] at h
  unfold make_id
  simp only [sizeof_isakmp_id]
  rw [h]
  rfl

theorem length_field_cons (a b len : Nat) (rest : List Nat) :
    length_field (a :: b :: (len / 256 % 256) :: (len % 256) :: rest) = len % 65536 := by
  simp [length_field]
  omega

theorem make_trans_length_field (next number : Nat) (p : trans_params) :
    length_field (make_trans next number p.cipher p.keylen p.hash p.auth p.group p.lifetime
        p.lifesize p.gss_id_flag p.gss_data).1
      = (make_trans next number p.cipher p.keylen p.hash p.auth p.group p.lifetime
        p.lifesize p.gss_id_flag p.gss_data).2 % 65536 := by
  obtain ⟨rest, len, _, h⟩ := make_trans_shape p.cipher p.keylen p.hash p.auth p.group
    p.lifetime p.lifesize p.gss_id_flag p.gss_data
  rw [h]
  exact length_field_cons _ _ _ _

/-- A buffer that starts with a generic header whose length field holds `len`, the
number of its bytes: bytes 2 and 3 exist and hold `len` in big-endian order. -/
theorem header_length_bytes (a b len : Nat) (rest : List Nat) (hlt : len < 65536) :
    (a :: b :: (len / 256 % 256) :: (len % 256) :: rest)[2]? = some (len / 256)
    ∧ (a :: b :: (len / 256 % 256) :: (len % 256) :: rest)[3]? = some (len % 256)
    ∧ length_field (a :: b :: (len / 256 % 256) :: (len % 256) :: rest) = len := by
  have e : len / 256 % 256 = len / 256 := Nat.mod_eq_of_lt (by omega)
  refine ⟨by simp [e], by simp, ?_⟩
  rw [length_field_cons]
  exact Nat.mod_eq_of_lt hlt

/-- C17 (amended): each of make_trans, make_vid, make_ke (for a kx_data_len that
is a multiple of 4), make_nonce and make_id returns a buffer of at least 4 bytes
whose number of bytes is the length reported through the length output; whenever
that length is below 65536, byte 2 of the buffer is its high byte and byte 3 its
low byte, so the 16-bit big-endian value at bytes 2 and 3 equals the length. -/
theorem builders_length_field :
    (∀ (next number : Nat) (p : trans_params),
        (make_trans next number p.cipher p.keylen p.hash p.auth p.group p.lifetime p.lifesize
          p.gss_id_flag p.gss_data).1.length
          = (make_trans next number p.cipher p.keylen p.hash p.auth p.group p.lifetime
              p.lifesize p.gss_id_flag p.gss_data).2
        ∧ 4 ≤ (make_trans next number p.cipher p.keylen p.hash p.auth p.group p.lifetime
              p.lifesize p.gss_id_flag p.gss_data).1.length
        ∧ ((make_trans next number p.cipher p.keylen p.hash p.auth p.group p.lifetime
              p.lifesize p.gss_id_flag p.gss_data).2 < 65536 →
            (make_trans next number p.cipher p.keylen p.hash p.auth p.group p.lifetime
              p.lifesize p.gss_id_flag p.gss_data).1[2]?
              = some ((make_trans next number p.cipher p.keylen p.hash p.auth p.group
                  p.lifetime p.lifesize p.gss_id_flag p.gss_data).2 / 256)
            ∧ (make_trans next number p.cipher p.keylen p.hash p.auth p.group p.lifetime
              p.lifesize p.gss_id_flag p.gss_data).1[3]?
              = some ((make_trans next number p.cipher p.keylen p.hash p.auth p.group
                  p.lifetime p.lifesize p.gss_id_flag p.gss_data).2 % 256)
            ∧ length_field (make_trans next number p.cipher p.keylen p.hash p.auth p.group
                p.lifetime p.lifesize p.gss_id_flag p.gss_data).1
              = (make_trans next number p.cipher p.keylen p.hash p.auth p.group p.lifetime
                  p.lifesize p.gss_id_flag p.gss_data).2))
    ∧ (∀ (next : Nat) (vid_data : List Nat),
        (make_vid next vid_data).1.length = (make_vid next vid_data).2
        ∧ 4 ≤ (make_vid next vid_data).1.length
        ∧ ((make_vid next vid_data).2 < 65536 →
            (make_vid next vid_data).1[2]? = some ((make_vid next vid_data).2 / 256)
            ∧ (make_vid next vid_data).1[3]? = some ((make_vid next vid_data).2 % 256)
            ∧ length_field (make_vid next vid_data).1 = (make_vid next vid_data).2))
    ∧ (∀ (rnd : Nat → Nat) (next kx_data_len : Nat), kx_data_len % 4 = 0 →
        ∃ buf len, make_ke rnd next kx_data_len = some (buf, len)
          ∧ buf.length = len ∧ 4 ≤ buf.length
          ∧ (len < 65536 →
              buf[2]? = some (len / 256) ∧ buf[3]? = some (len % 256)
              ∧ length_field buf = len))
    ∧ (∀ (rnd : Nat → Nat) (next nonce_len : Nat),
        (make_nonce rnd next nonce_len).1.length = (make_nonce rnd next nonce_len).2
        ∧ 4 ≤ (make_nonce rnd next nonce_len).1.length
        ∧ ((make_nonce rnd next nonce_len).2 < 65536 →
            (make_nonce rnd next nonce_len).1[2]? = some ((make_nonce rnd next nonce_len).2 / 256)
            ∧ (make_nonce rnd next nonce_len).1[3]?
                = some ((make_nonce rnd next nonce_len).2 % 256)
            ∧ length_field (make_nonce rnd next nonce_len).1 = (make_nonce rnd next nonce_len).2))
    ∧ (∀ (next idtype : Nat) (id_data : List Nat),
        (make_id next idtype id_data).1.length = (make_id next idtype id_data).2
        ∧ 4 ≤ (make_id next idtype id_data).1.length
        ∧ ((make_id next idtype id_data).2 < 65536 →
            (make_id next idtype id_data).1[2]? = some ((make_id next idtype id_data).2 / 256)
            ∧ (make_id next idtype id_data).1[3]? = some ((make_id next idtype id_data).2 % 256)
            ∧ length_field (make_id next idtype id_data).1 = (make_id next idtype id_data).2)) := by
  refine ⟨?_, ?_, ?_, ?_, ?_⟩
  · intro next number p
    obtain ⟨rest, len, hlen, h⟩ := make_trans_shape p.cipher p.keylen p.hash p.auth p.group
      p.lifetime p.lifesize p.gss_id_flag p.gss_data
    rw [h]
    refine ⟨by simp; omega, by simp, fun hlt => ?_⟩
    exact header_length_bytes _ _ len _ hlt
  · intro next vid_data
    rw [make_vid_eq]
    refine ⟨by simp; omega, by simp, fun hlt => ?_⟩
    exact header_length_bytes _ _ (4 + vid_data.length) _ hlt
  · intro rnd next n h4
    refine ⟨_, _, make_ke_eq rnd next n h4, by simp [rand_bytes_length]; omega, by simp,
      fun hlt => ?_⟩
    exact header_length_bytes _ _ (4 + n) _ hlt
  · intro rnd next n
    rw [make_nonce_eq]
    refine ⟨by simp [rand_bytes_length]; omega, by simp, fun hlt => ?_⟩
    exact header_length_bytes _ _ (4 + n) _ hlt
  · intro next idtype id_data
    rw [make_id_eq]
    refine ⟨by simp; omega, by simp, fun hlt => ?_⟩
    exact header_length_bytes _ _ (8 + id_data.length) _ hlt

/-- C17 (amended), at the Vendor ID payload make_vid builds for a 3-byte body: 7
bytes, with 0 and 7 at bytes 2 and 3. -/
theorem builders_length_field_witness :
    (make_vid 13 [1, 2, 3]).1.length = 7
    ∧ (make_vid 13 [1, 2, 3]).1[2]? = some 0
    ∧ (make_vid 13 [1, 2, 3]).1[3]? = some 7
    ∧ length_field (make_vid 13 [1, 2, 3]).1 = 7 :=
  ⟨(builders_length_field.2.1 13 [1, 2, 3]).1,
   ((builders_length_field.2.1 13 [1, 2, 3]).2.2 (by decide)).1,
   ((builders_length_field.2.1 13 [1, 2, 3]).2.2 (by decide)).2.1,
   ((builders_length_field.2.1 13 [1, 2, 3]).2.2 (by decide)).2.2⟩

/-- C17 as stated fails: for a Vendor ID body of 65532 bytes make_vid reports the
length 65536, and the 16-bit value at bytes 2 and 3 of the buffer is 0. -/
theorem make_vid_length_field_wraps :
    (make_vid 0 (List.replicate 65532 0)).2 = 65536
    ∧ length_field (make_vid 0 (List.replicate 65532 0)).1 = 0
    ∧ length_field (make_vid 0 (List.replicate 65532 0)).1
        ≠ (make_vid 0 (List.replicate 65532 0)).2 := by
  have h := make_vid_eq 0 (List.replicate 65532 0)
  rw [List.length_replicate] at h
  rw [h]
  refine ⟨rfl, ?_, ?_⟩
  · rw [List.cons_append, List.cons_append, List.cons_append, List.cons_append,
      length_field_cons]
  · rw [List.cons_append, List.cons_append, List.cons_append, List.cons_append,
      length_field_cons]
    decide

/-- C18: make_ke returns no buffer exactly when kx_data_len is not a multiple of 4;
for a multiple of 4 that fits the length field it returns the 4 + kx_data_len bytes
next, 0, the length in two big-endian bytes, then the low bytes of the first
kx_data_len values drawn from the generator, in the order drawn. -/
theorem make_ke_spec (rnd : Nat → Nat) (next kx_data_len : Nat) (hnext : next < 256) :
    (make_ke rnd next kx_data_len = none ↔ kx_data_len % 4 ≠ 0)
    ∧ (kx_data_len % 4 = 0 → 4 + kx_data_len < 65536 →
        make_ke rnd next kx_data_len
          = some ([next, 0, (4 + kx_data_len) / 256, (4 + kx_data_len) % 256]
                    ++ (List.range kx_data_len).map (fun i => rnd i % 256),
                  4 + kx_data_len)
        ∧ ([next, 0, (4 + kx_data_len) / 256, (4 + kx_data_len) % 256]
              ++ (List.range kx_data_len).map (fun i => rnd i % 256)).length
            = 4 + kx_data_len) := by
  constructor
  · by_cases h4 : kx_data_len % 4 = 0
    · rw [make_ke_eq rnd next kx_data_len h4]
      simp [h4]
    · simp [make_ke, h4, err_msg]
  · intro h4 hfit
    rw [make_ke_eq rnd next kx_data_len h4]
    have e1 : (4 + kx_data_len) / 256 % 256 = (4 + kx_data_len) / 256 :=
      Nat.mod_eq_of_lt (by omega)
    rw [e1, Nat.mod_eq_of_lt hnext]
    refine ⟨rfl, ?_⟩
    simp
    omega

/-- C18, at a key exchange body of 8 bytes drawn from the generator i + 300. -/
theorem make_ke_spec_witness :
    make_ke (fun i => i + 300) 5 8 = some ([5, 0, 0, 12, 44, 45, 46, 47, 48, 49, 50, 51], 12) :=
  ((make_ke_spec (fun i => i + 300) 5 8 (by decide)).2 (by decide) (by decide)).1

/-! ### Build-then-decode round trip -/

theorem sa_datagram_bytes (host_be : Bool) (x n : Nat) (trans : List Nat) (tlen : Nat) :
    (sa_datagram host_be x n trans tlen).length = 48 + trans.length
    ∧ mem_of (sa_datagram host_be x n trans tlen) 16 = 1
    ∧ mem_of (sa_datagram host_be x n trans tlen) 18 = x % 256
    ∧ mem_of (sa_datagram host_be x n trans tlen) 24 = (48 + tlen) / 16777216 % 256
    ∧ mem_of (sa_datagram host_be x n trans tlen) 25 = (48 + tlen) / 65536 % 256
    ∧ mem_of (sa_datagram host_be x n trans tlen) 26 = (48 + tlen) / 256 % 256
    ∧ mem_of (sa_datagram host_be x n trans tlen) 27 = (48 + tlen) % 256
    ∧ mem_of (sa_datagram host_be x n trans tlen) 30 = (20 + tlen) / 256 % 256
    ∧ mem_of (sa_datagram host_be x n trans tlen) 31 = (20 + tlen) % 256
    ∧ mem_of (sa_datagram host_be x n trans tlen) 47 = n % 256 := by
  have e1 : 28 + (12 + (8 + tlen)) = 48 + tlen := by omega
  have e2 : 12 + (8 + tlen) = 20 + tlen := by omega
  cases host_be <;>
    simp [sa_datagram, make_isakmp_hdr, make_sa_hdr, make_prop, host_u32, htonl, htons, mem_of,
      ISAKMP_NEXT_SA, ISAKMP_NEXT_NONE, ISAKMP_DOI_IPSEC, SIT_IDENTITY_ONLY, PROTO_ISAKMP,
      sizeof_isakmp_hdr, sizeof_isakmp_sa, sizeof_isakmp_proposal, e1, e2] <;> omega

/-- The finalised buffer and length for a non-empty list of parameter sets. -/
theorem add_trans_build_eq (ps : List trans_params) (hne : ps ≠ []) :
    add_trans_build ps
      = some ((expected_transforms 1 ps).flatten,
              ((expected_transforms 1 ps).map List.length).sum) := by
  obtain ⟨p, qs, rfl⟩ := List.exists_cons_of_ne_nil hne
  obtain ⟨a, b, c⟩ := add_trans_appends_state qs p trans_state_init rfl (fun _ => rfl)
  have hflat := expected_transforms_flatten qs p 1
  unfold add_trans_build add_trans
  simp only [one_ne_zero, if_false]
  rw [b, a, c]
  simp only [trans_state_init, List.nil_append, Nat.zero_add, List.length_set]
  rw [hflat]
  have hl : (appended_transforms 1 (p :: qs)).flatten.length
      = (expected_transforms 1 (p :: qs)).flatten.length := by
    rw [← hflat, List.length_set]
  rw [hl, List.length_flatten]

/-- Build then decode, for any finalised transforms: the header decoder succeeds,
and the SA summary depends on the low 16 bits of the SA length. -/
theorem round_trip_eq (host_be : Bool) (x : Nat) (ps : List trans_params) (tbuf : List Nat)
    (tlen : Nat) (hx : x < 256) (hn : ps.length ≤ 255) (htl : tlen < 4294967248)
    (hb : add_trans_build ps = some (tbuf, tlen)) :
    round_trip host_be x ps
      = some ({ ret := some 28, len := 20 + tbuf.length, next := 1, type := (x : Nat) },
              if (20 + tlen) % 65536 < 20 then sa_too_short
              else sa_summary (x : Nat) ps.length) := by
  obtain ⟨hlen, b16, b18, b24, b25, b26, b27, b30, b31, b47⟩ :=
    sa_datagram_bytes host_be x ps.length tbuf tlen
  have hh : (process_isakmp_hdr (mem_of (sa_datagram host_be x ps.length tbuf tlen)) 0
      (sa_datagram host_be x ps.length tbuf tlen).length).val
      = { ret := some 28, len := 20 + tbuf.length, next := 1, type := (x : Nat) } := by
    rw [process_isakmp_hdr_val]
    simp only [Nat.zero_add, b16, b18, b24, b25, b26, b27, hlen]
    rw [if_neg (by omega)]
    have e1 : 48 + tbuf.length - 28 = 20 + tbuf.length := by omega
    rw [e1]
    simp [Nat.mod_eq_of_lt hx]
  have hs : (process_sa (mem_of (sa_datagram host_be x ps.length tbuf tlen)) 28
      (20 + tbuf.length) (x : Nat)).val
      = if (20 + tlen) % 65536 < 20 then sa_too_short else sa_summary (x : Nat) ps.length := by
    rw [process_sa_val _ _ _ _ (by omega) (by omega)]
    simp only [Nat.reduceAdd, b30, b31, b47]
    have en : ps.length % 256 % 256 = ps.length := by omega
    rw [en]
    by_cases hc : (20 + tlen) % 65536 < 20
    · rw [if_pos hc, if_pos (by omega)]
    · rw [if_neg hc, if_neg (by omega)]
  unfold round_trip
  rw [hb]
  simp only [hh, hs]

theorem trans_chain_length_eq (ps : List trans_params) (tbuf : List Nat) (tlen : Nat)
    (hb : add_trans_build ps = some (tbuf, tlen)) : trans_chain_length ps = tlen := by
  unfold trans_chain_length
  rw [hb]
  rfl

theorem add_trans_build_isSome (ps : List trans_params) :
    ∃ tbuf tlen, add_trans_build ps = some (tbuf, tlen) := by
  unfold add_trans_build add_trans
  simp only [one_ne_zero, if_false]
  exact ⟨_, _, rfl⟩

theorem add_trans_build_length (ps : List trans_params) (hne : ps ≠ []) (tbuf : List Nat)
    (tlen : Nat) (hb : add_trans_build ps = some (tbuf, tlen)) : tbuf.length = tlen := by
  rw [add_trans_build_eq ps hne] at hb
  obtain ⟨rfl, rfl⟩ := Prod.mk.inj (Option.some.inj hb)
  exact List.length_flatten _

/-- C16 (amended): for 1 to 255 parameter sets whose SA payload length, 20 plus the
length of the finalised transforms, is below 65536, and an exchange type x below
256, the header decoder run on the assembled datagram returns the cursor 28, the
remaining length, next = SA (1) and exchange type x, and process_sa on the
remaining slice returns the mode string of x, followed by " (n transforms)" when n
is not 1. -/
theorem round_trip_summary (host_be : Bool) (x : Nat) (ps : List trans_params)
    (hx : x < 256) (hne : ps ≠ []) (hn : ps.length ≤ 255)
    (hfit : 20 + trans_chain_length ps < 65536) :
    round_trip host_be x ps
      = some ({ ret := some 28, len := 20 + trans_chain_length ps, next := 1, type := (x : Nat) },
              if ps.length = 1 then sa_base (x : Nat)
              else sa_base (x : Nat) ++ " (" ++ toString ps.length ++ " transforms)") := by
  obtain ⟨tbuf, tlen, hb⟩ := add_trans_build_isSome ps
  rw [trans_chain_length_eq ps tbuf tlen hb] at hfit ⊢
  rw [round_trip_eq host_be x ps tbuf tlen hx hn (by omega) hb, if_neg (by omega),
    add_trans_build_length ps hne tbuf tlen hb]
  rfl

/-- C16 (amended), at scenario S6: three appends, main mode. -/
theorem round_trip_summary_witness :
    round_trip false 2 [trans_params_basic, trans_params_basic, trans_params_basic]
      = some ({ ret := some 28, len := 92, next := 1, type := 2 },
              "Main Mode Handshake returned (3 transforms)") :=
  round_trip_summary false 2 [trans_params_basic, trans_params_basic, trans_params_basic]
    (by decide) (by simp) (by decide) (by decide)

theorem make_trans_gss_length (g : List Nat) :
    (make_trans 0 1 5 0 2 1 2 0 0 1 g).2 = 28 + g.length := by
  simp [make_trans, sizeof_isakmp_transform, sizeof_isakmp_attribute]
  omega

theorem trans_long_gss_build :
    ∃ tbuf, add_trans_build [trans_params_long_gss] = some (tbuf, 65516) := by
  have h := add_trans_build_eq [trans_params_long_gss] (by simp)
  have hl := make_trans_length 0 1 trans_params_long_gss
  have h2 : (make_trans 0 1 trans_params_long_gss.cipher trans_params_long_gss.keylen
      trans_params_long_gss.hash trans_params_long_gss.auth trans_params_long_gss.group
      trans_params_long_gss.lifetime trans_params_long_gss.lifesize
      trans_params_long_gss.gss_id_flag trans_params_long_gss.gss_data).2 = 65516 := by
    show (make_trans 0 1 5 0 2 1 2 0 0 1 (List.replicate 65488 0)).2 = 65516
    rw [make_trans_gss_length, List.length_replicate]
  refine ⟨(expected_transforms 1 [trans_params_long_gss]).flatten, ?_⟩
  rw [h]
  simp only [expected_transforms, List.map_cons, List.map_nil, List.sum_cons, List.sum_nil,
    Nat.add_zero, hl, h2]

/-- C16 as stated fails: for one transform with a GSS identity of 65488 bytes the
SA payload length is 65536, its length field holds 0, and process_sa reports the
packet as too short instead of "Main Mode Handshake returned". -/
theorem round_trip_fails_long_sa :
    (round_trip false 2 [trans_params_long_gss]).map Prod.snd
        = some "IKE Handshake returned (packet too short to decode)"
    ∧ (round_trip false 2 [trans_params_long_gss]).map Prod.snd
        ≠ some "Main Mode Handshake returned" := by
  obtain ⟨tbuf, hb⟩ := trans_long_gss_build
  have h := round_trip_eq false 2 [trans_params_long_gss] tbuf 65516 (by decide) (by decide)
    (by decide) hb
  rw [h, if_pos (by decide)]
  refine ⟨rfl, ?_⟩
  simp only [Option.map_some']
  decide

/-! ### make_isakmp_hdr, make_id, make_nonce -/

/-- C21: for xchg and next below 256 and a length below 2^32, on either host byte
order, make_isakmp_hdr returns 28 bytes; from byte 8 on they are eight zero bytes
(responder cookie), next, 0x10, xchg, 0 (flags), four zero bytes (message-id) and
the length in four big-endian bytes, and reading bytes 24..27 big-endian gives the
length back. -/
theorem make_isakmp_hdr_wire (host_be : Bool) (xchg next length : Nat)
    (hxchg : xchg < 256) (hnext : next < 256) (hlength : length < 4294967296) :
    (make_isakmp_hdr host_be xchg next length).length = 28
    ∧ (make_isakmp_hdr host_be xchg next length).drop 8
        = [0, 0, 0, 0, 0, 0, 0, 0, next, 0x10, xchg, 0, 0, 0, 0, 0,
           length / 16777216, length / 65536 % 256, length / 256 % 256, length % 256]
    ∧ (make_isakmp_hdr host_be xchg next length).getD 24 0 * 16777216
        + (make_isakmp_hdr host_be xchg next length).getD 25 0 * 65536
        + (make_isakmp_hdr host_be xchg next length).getD 26 0 * 256
        + (make_isakmp_hdr host_be xchg next length).getD 27 0 = length := by
  have e1 : length / 16777216 % 256 = length / 16777216 := Nat.mod_eq_of_lt (by omega)
  cases host_be <;>
    simp [make_isakmp_hdr, host_u32, htonl, e1, Nat.mod_eq_of_lt hxchg, Nat.mod_eq_of_lt hnext]
      <;> omega

/-- C21, at a main mode header with next payload SA and total length 72. -/
theorem make_isakmp_hdr_wire_witness :
    (make_isakmp_hdr false 2 1 72).drop 8
      = [0, 0, 0, 0, 0, 0, 0, 0, 1, 16, 2, 0, 0, 0, 0, 0, 0, 0, 0, 72] :=
  (make_isakmp_hdr_wire false 2 1 72 (by decide) (by decide) (by decide)).2.1

/-- C22: for next and idtype below 256 and identity bytes that fit the length
field, make_id returns the 8 + id_data_len bytes next, 0, the length in two
big-endian bytes, idtype, 17, 0x01, 0xF4, then the identity bytes unchanged. -/
theorem make_id_wire (next idtype : Nat) (id_data : List Nat)
    (hnext : next < 256) (hidtype : idtype < 256) (hfit : 8 + id_data.length < 65536) :
    make_id next idtype id_data
      = ([next, 0, (8 + id_data.length) / 256, (8 + id_data.length) % 256, idtype, 17, 0x01, 0xF4]
            ++ id_data, 8 + id_data.length)
    ∧ ([next, 0, (8 + id_data.length) / 256, (8 + id_data.length) % 256, idtype, 17, 0x01, 0xF4]
            ++ id_data).length = 8 + id_data.length := by
  have e1 : (8 + id_data.length) / 256 % 256 = (8 + id_data.length) / 256 :=
    Nat.mod_eq_of_lt (by omega)
  rw [make_id_eq, e1, Nat.mod_eq_of_lt hnext, Nat.mod_eq_of_lt hidtype]
  refine ⟨rfl, ?_⟩
  simp
  omega

/-- C22, at an identity of two bytes. -/
theorem make_id_wire_witness :
    make_id 5 1 [9, 9] = ([5, 0, 0, 10, 1, 17, 1, 244, 9, 9], 10) :=
  (make_id_wire 5 1 [9, 9] (by decide) (by decide) (by decide)).1

/-- C24: for next below 256 and a nonce length that fits the length field,
make_nonce returns the 4 + nonce_len bytes next, 0, the length in two big-endian
bytes, then the low bytes of the first nonce_len values drawn from the generator
in the order drawn; the VID header size used for the start of the body equals the
Nonce header size. -/
theorem make_nonce_wire (rnd : Nat → Nat) (next nonce_len : Nat)
    (hnext : next < 256) (hfit : 4 + nonce_len < 65536) :
    make_nonce rnd next nonce_len
      = ([next, 0, (4 + nonce_len) / 256, (4 + nonce_len) % 256]
            ++ (List.range nonce_len).map (fun i => rnd i % 256), 4 + nonce_len)
    ∧ ([next, 0, (4 + nonce_len) / 256, (4 + nonce_len) % 256]
            ++ (List.range nonce_len).map (fun i => rnd i % 256)).length = 4 + nonce_len
    ∧ sizeof_isakmp_vid = sizeof_isakmp_nonce := by
  have e1 : (4 + nonce_len) / 256 % 256 = (4 + nonce_len) / 256 := Nat.mod_eq_of_lt (by omega)
  rw [make_nonce_eq, e1, Nat.mod_eq_of_lt hnext]
  refine ⟨rfl, ?_, rfl⟩
  simp
  omega

/-- C24, at a nonce of three bytes drawn from the generator i + 7. -/
theorem make_nonce_wire_witness :
    make_nonce (fun i => i + 7) 0 3 = ([0, 0, 0, 7, 7, 8, 9], 7) :=
  (make_nonce_wire (fun i => i + 7) 0 3 (by decide) (by decide)).1

/-! ### Iterating skip_payload -/

/-- An advancing call of skip_payload: the cursor moves by a declared length of at
least 4 that is smaller than the remaining length. -/
theorem skip_payload_advance (mem : Nat → Nat) (cp len c : Nat)
    (h : (skip_payload mem cp len).val.ret = some c) :
    (skip_payload mem cp len).val.len + 4 ≤ len
    ∧ 1 ≤ (skip_payload mem cp len).val.len
    ∧ c + (skip_payload mem cp len).val.len = cp + len := by
  rw [skip_payload_val] at h ⊢
  by_cases hc : len < 4 ∨ mem (cp + 2) % 256 * 256 + mem (cp + 3) % 256 ≥ len
      ∨ mem (cp + 2) % 256 * 256 + mem (cp + 3) % 256 < 4 ∨ mem cp % 256 = 0
  · rw [if_pos hc] at h
    simp at h
  · rw [if_neg hc] at h ⊢
    simp only [Option.some.injEq] at h
    simp only
    omega

theorem skip_walk_terminates (mem : Nat → Nat) (fuel : Nat) :
    ∀ cp len, len < 4 * fuel →
      ∃ cursors, skip_walk mem fuel cp len = some cursors
        ∧ 4 * cursors.length ≤ len ∧ ∀ c ∈ cursors, cp ≤ c ∧ c < cp + len := by
  induction fuel with
  | zero => intro cp len h; omega
  | succ fuel ih =>
    intro cp len h
    cases hr : (skip_payload mem cp len).val.ret with
    | none =>
      refine ⟨[], ?_, by simp, by simp⟩
      simp only [skip_walk, hr]
    | some c =>
      obtain ⟨h1, h2, h3⟩ := skip_payload_advance mem cp len c hr
      obtain ⟨cs, hcs, hlen, hin⟩ := ih c (skip_payload mem cp len).val.len (by omega)
      refine ⟨c :: cs, ?_, ?_, ?_⟩
      · simp only [skip_walk, hr, hcs, Option.map_some']
      · simp only [List.length_cons]
        omega
      · intro x hx
        rcases List.mem_cons.mp hx with rfl | hx
        · omega
        · have := hin x hx
          omega

/-- C23: an advancing call of skip_payload leaves a remaining length that is at
least 1 and at least 4 smaller than before, and keeps cursor plus remaining length
unchanged; so the walk from any cursor with N bytes remaining reaches end-of-chain
within N/4 + 1 calls, after at most N/4 advances, and every cursor it produces lies
inside the N bytes that start at the first cursor. -/
theorem skip_walk_linear (mem : Nat → Nat) (cp N : Nat) :
    (∀ cp1 len c, (skip_payload mem cp1 len).val.ret = some c →
        (skip_payload mem cp1 len).val.len + 4 ≤ len
        ∧ 1 ≤ (skip_payload mem cp1 len).val.len
        ∧ c + (skip_payload mem cp1 len).val.len = cp1 + len)
    ∧ ∃ cursors, skip_walk mem (N / 4 + 1) cp N = some cursors
        ∧ cursors.length ≤ N / 4 ∧ ∀ c ∈ cursors, cp ≤ c ∧ c < cp + N := by
  refine ⟨fun cp1 len c h => skip_payload_advance mem cp1 len c h, ?_⟩
  obtain ⟨cs, h1, h2, h3⟩ := skip_walk_terminates mem (N / 4 + 1) cp N (by omega)
  exact ⟨cs, h1, by omega, h3⟩

/-- C23, at a chain of three Vendor ID payloads in 15 bytes. -/
theorem skip_walk_linear_witness :
    ∃ cursors, skip_walk (mem_of [13, 0, 0, 6, 1, 2, 13, 0, 0, 5, 3, 0, 0, 0, 4]) (15 / 4 + 1) 0 15
        = some cursors
      ∧ cursors.length ≤ 15 / 4 ∧ ∀ c ∈ cursors, 0 ≤ c ∧ c < 0 + 15 :=
  (skip_walk_linear (mem_of [13, 0, 0, 6, 1, 2, 13, 0, 0, 5, 3, 0, 0, 0, 4]) 0 15).2

/-! ### Finalising the transform accumulator -/

theorem add_trans_finalize (p : trans_params) (s : trans_state) :
    add_trans 1 p s
      = ({ s with trans_start := s.trans_start.set s.cur_offset 0 },
         some (s.trans_start.set s.cur_offset 0, s.end_offset)) := by
  unfold add_trans
  simp only [one_ne_zero, if_false]

/-- The flag and the counter after a non-empty run of appending calls. -/
theorem add_trans_appends_counters (ps : List trans_params) :
    ∀ (p : trans_params) (s : trans_state), s.trans_start.length = s.end_offset →
      (s.first_transform ≠ 0 → s.end_offset = 0) →
      (add_trans_appends (p :: ps) s).first_transform = 0
      ∧ (add_trans_appends (p :: ps) s).trans_no = s.trans_no + (ps.length + 1) := by
  induction ps with
  | nil =>
    intro p s h1 h2
    have hstep := add_trans_append_step p s h1 h2
    have e : add_trans_appends [p] s = (add_trans 0 p s).1 := rfl
    rw [e, hstep]
    simp
  | cons q qs ih =>
    intro p s h1 h2
    have hstep := add_trans_append_step p s h1 h2
    have e : add_trans_appends (p :: q :: qs) s
        = add_trans_appends (q :: qs) (add_trans 0 p s).1 := rfl
    rw [e]
    obtain ⟨a, b⟩ := ih q (add_trans 0 p s).1 (by rw [hstep]; simp [h1]) (by rw [hstep]; simp)
    refine ⟨a, ?_⟩
    rw [b, hstep]
    simp only [List.length_cons]
    omega

/-- The static state after a non-empty run of appends and a finalising call. -/
theorem add_trans_finalized_state (ps : List trans_params) (hne : ps ≠ []) (p : trans_params) :
    (add_trans 1 p (add_trans_appends ps trans_state_init)).1.trans_start
        = (expected_transforms 1 ps).flatten
    ∧ (add_trans 1 p (add_trans_appends ps trans_state_init)).1.end_offset
        = (expected_transforms 1 ps).flatten.length
    ∧ (add_trans 1 p (add_trans_appends ps trans_state_init)).1.first_transform = 0
    ∧ (add_trans 1 p (add_trans_appends ps trans_state_init)).1.trans_no = ps.length + 1 := by
  obtain ⟨p0, qs, rfl⟩ := List.exists_cons_of_ne_nil hne
  obtain ⟨a, b, c⟩ := add_trans_appends_state qs p0 trans_state_init rfl (fun _ => rfl)
  obtain ⟨d, e⟩ := add_trans_appends_counters qs p0 trans_state_init rfl (fun _ => rfl)
  have hflat := expected_transforms_flatten qs p0 1
  have a1 : (add_trans_appends (p0 :: qs) trans_state_init).trans_start
      = (appended_transforms 1 (p0 :: qs)).flatten := by
    rw [a]
    rfl
  have c1 : (add_trans_appends (p0 :: qs) trans_state_init).cur_offset
      = ((appended_transforms 1 (p0 :: qs)).dropLast).flatten.length := by
    rw [c]
    simp [trans_state_init]
  have e1 : (add_trans_appends (p0 :: qs) trans_state_init).trans_no = qs.length + 1 + 1 := by
    rw [e]
    simp only [trans_state_init]
    omega
  rw [add_trans_finalize]
  refine ⟨?_, ?_, d, ?_⟩
  · show (add_trans_appends (p0 :: qs) trans_state_init).trans_start.set
        (add_trans_appends (p0 :: qs) trans_state_init).cur_offset 0 = _
    rw [a1, c1, hflat]
  · show (add_trans_appends (p0 :: qs) trans_state_init).end_offset = _
    rw [b, a1, ← hflat, List.length_set]
  · show (add_trans_appends (p0 :: qs) trans_state_init).trans_no = _
    rw [e1, List.length_cons]

/-- C25: a finalising call keeps the flag, the two offsets and the transform
counter, keeps the length of the buffer and every byte other than the one at
cur_offset, which it sets to 0, and returns the buffer with end_offset; a second
finalising call returns the same and leaves the same state; and after a non-empty
run of appends and a finalising call, a further append followed by a finalising
call returns the earlier finalised chain, its last transform still with
next-payload 0, followed by the new transform built with the next transform
number and next-payload 0, with the sum of the lengths. -/
theorem add_trans_finalize_frame :
    (∀ (s : trans_state) (p : trans_params),
        (add_trans 1 p s).1.first_transform = s.first_transform
        ∧ (add_trans 1 p s).1.cur_offset = s.cur_offset
        ∧ (add_trans 1 p s).1.end_offset = s.end_offset
        ∧ (add_trans 1 p s).1.trans_no = s.trans_no
        ∧ (add_trans 1 p s).1.trans_start.length = s.trans_start.length
        ∧ (∀ i, i ≠ s.cur_offset →
            (add_trans 1 p s).1.trans_start.getD i 0 = s.trans_start.getD i 0)
        ∧ (s.cur_offset < s.trans_start.length →
            (add_trans 1 p s).1.trans_start.getD s.cur_offset 0 = 0)
        ∧ (add_trans 1 p s).2 = some ((add_trans 1 p s).1.trans_start, s.end_offset))
    ∧ (∀ (s : trans_state) (p q : trans_params),
        add_trans 1 q (add_trans 1 p s).1 = add_trans 1 p s)
    ∧ (∀ (ps : List trans_params) (q : trans_params), ps ≠ [] →
        (add_trans 1 trans_params_unused
            (add_trans 0 q
              (add_trans 1 trans_params_unused (add_trans_appends ps trans_state_init)).1).1).2
          = some ((expected_transforms 1 ps).flatten
                    ++ (make_trans 0 (ps.length + 1) q.cipher q.keylen q.hash q.auth q.group
                          q.lifetime q.lifesize q.gss_id_flag q.gss_data).1,
                  ((expected_transforms 1 ps).map List.length).sum
                    + (make_trans 0 (ps.length + 1) q.cipher q.keylen q.hash q.auth q.group
                          q.lifetime q.lifesize q.gss_id_flag q.gss_data).1.length)) := by
  refine ⟨?_, ?_, ?_⟩
  · intro s p
    rw [add_trans_finalize]
    refine ⟨rfl, rfl, rfl, rfl, by simp, ?_, ?_, rfl⟩
    · intro i hi
      simp only [List.getD_eq_getElem?_getD]
      rw [List.getElem?_set_ne (Ne.symm hi)]
    · intro hlt
      simp only [List.getD_eq_getElem?_getD]
      rw [List.getElem?_set_self hlt]
      rfl
  · intro s p q
    rw [add_trans_finalize, add_trans_finalize]
    simp
  · intro ps q hne
    obtain ⟨a, b, c, d⟩ := add_trans_finalized_state ps hne trans_params_unused
    have hstep := add_trans_append_step q
      (add_trans 1 trans_params_unused (add_trans_appends ps trans_state_init)).1
      (by rw [a, b]) (by intro h; exact absurd c h)
    rw [add_trans_finalize, hstep]
    simp only [a, b, d]
    rw [List.set_append_right _ _ (by omega), Nat.sub_self, make_trans_set_next,
      List.length_flatten]
    have hl : (make_trans 3 (ps.length + 1) q.cipher q.keylen q.hash q.auth q.group q.lifetime
        q.lifesize q.gss_id_flag q.gss_data).1.length
        = (make_trans 0 (ps.length + 1) q.cipher q.keylen q.hash q.auth q.group q.lifetime
            q.lifesize q.gss_id_flag q.gss_data).1.length := by
      rw [← make_trans_set_next, List.length_set]
    rw [hl]

/-- C25, at one append, a finalising call, a second append and a finalising call:
the first transform keeps next-payload 0 in front of the second. -/
theorem add_trans_finalize_frame_witness :
    (add_trans 1 trans_params_unused
        (add_trans 0 trans_params_basic
          (add_trans 1 trans_params_unused
            (add_trans_appends [trans_params_basic] trans_state_init)).1).1).2
      = some ([0, 0, 0, 24, 1, 1, 0, 0, 128, 1, 0, 5, 128, 2, 0, 2, 128, 3, 0, 1, 128, 4, 0, 2,
               0, 0, 0, 24, 2, 1, 0, 0, 128, 1, 0, 5, 128, 2, 0, 2, 128, 3, 0, 1, 128, 4, 0, 2],
              48) :=
  add_trans_finalize_frame.2.2 [trans_params_basic] trans_params_basic (by simp)

end Isakmp
